import Mathlib

/-!
# Verification of the lwext4 JBD journal subsystem (`ext4_journal.c`)

Shallow embedding of the journal code of `src/lwext4/ext4_journal.c` together
with proofs about the properties claimed by the specification.

Modelling conventions:

* C `int` error codes are `Int` constants (`eOK`, ` eIOerr`, ...), with the
  standard errno values.
* The on-disk block tag structs (`struct jbd_block_tag`, `struct
  jbd_block_tag3`) are declared in a header that is not part of the sources;
  the journal code accesses them exclusively through the field accessors
  `jbd_get32/16` and `jbd_set32/16`, so they are modelled at field level as
  records of natural numbers (each truncated to its field width where the code
  truncates), with the optional trailing UUID area modelled as a separate byte
  list.  Field offsets never matter at this level.
* The red-black trees used for the revoke index and the block-record index
  are ordered maps keyed by block number; they are modelled as association
  lists with lookup/update/erase.
* External collaborators (block device, buffer cache, inode mapping) follow
  the contracts of the specification: fallible device operations consume an
  oracle of result codes, the journal inode's block map is a function
  parameter, and buffer-cache entries are records keyed by device LBA.
-/

namespace LwJbd

/-- errno value of EOK. -/
def eOK : Int := 0

/-- errno value of EIO. -/
def eIOerr : Int := 5

/-- errno value of ENOMEM. -/
def eNOMEM : Int := 12

/-- errno value of EINVAL. -/
def eINVAL : Int := 22

/-- 0xC03B3998, the JBD magic number. -/
def JBD_MAGIC_NUMBER : Nat := 0xC03B3998

/-- Journal block types (block header `blocktype` field). -/
def JBD_DESCRIPTOR_BLOCK : Nat := 1

/-- Commit block type. -/
def JBD_COMMIT_BLOCK : Nat := 2

/-- Journal superblock v1 block type. -/
def JBD_SUPERBLOCK : Nat := 3

/-- Journal superblock v2 block type. -/
def JBD_SUPERBLOCK_V2 : Nat := 4

/-- Revoke block type. -/
def JBD_REVOKE_BLOCK : Nat := 5

/-- Size of a UUID in bytes. -/
def UUID_SIZE : Int := 16

/-- Block tag flag: the on-disk data was escaped. -/
def JBD_FLAG_ESCAPE : Nat := 1

/-- Block tag flag: the tag carries no inline UUID. -/
def JBD_FLAG_SAME_UUID : Nat := 2

/-- Block tag flag: last tag of the descriptor block. -/
def JBD_FLAG_LAST_TAG : Nat := 8

/-- The three incompatible feature bits of the journal superblock that the
journal code consumes (`JBD_HAS_INCOMPAT_FEATURE` tests).  Only the truth of
each bit matters to the code, so the bitmask is modelled as three booleans. -/
structure JbdFeat where
  incompat_64bit : Bool
  incompat_csum_v2 : Bool
  incompat_csum_v3 : Bool
deriving DecidableEq

/-- `struct tag_info` of `ext4_journal.c`. -/
structure TagInfo where
  /-- Tag size in bytes, including the UUID part. -/
  tag_bytes : Int
  /-- Block number stored in this tag (C type `ext4_fsblk_t`, a `uint64_t`). -/
  block : Nat
  /-- Whether the UUID part exists. -/
  uuid_exist : Bool
  /-- UUID content if the UUID part exists. -/
  uuid : List Nat
  /-- Is this the last tag? -/
  last_tag : Bool
deriving DecidableEq

/-- Field-level model of `struct jbd_block_tag` (the tag layout used when
CSUM_V3 is clear): a 32-bit block number, a 16-bit checksum, a 16-bit flags
field and a 32-bit high half of the block number.  The struct itself lives in
a header outside the sources; the journal code touches it only through
`jbd_get32/16` and `jbd_set32/16` accessors, which this record models. -/
structure JbdBlockTag where
  blocknr : Nat
  checksum : Nat
  flags : Nat
  blocknr_high : Nat
deriving DecidableEq

/-- Field-level model of `struct jbd_block_tag3` (the 16-byte tag layout used
when CSUM_V3 is set): four 32-bit fields. -/
structure JbdBlockTag3 where
  blocknr : Nat
  flags : Nat
  blocknr_high : Nat
  checksum : Nat
deriving DecidableEq

/-- The memory a block tag is read from / written to: the tag struct in the
layout selected by the feature flags, followed by the (optional) 16-byte UUID
area.  Reinterpreting the same bytes under the other layout is outside this
field-level model; both functions under one fixed feature set always use the
matching constructor. -/
inductive TagMem where
  | v1 (tag : JbdBlockTag) (uuidArea : List Nat)
  | v3 (tag : JbdBlockTag3) (uuidArea : List Nat)
deriving DecidableEq

/-- Does the layout of `mem` match the CSUM_V3 feature selection of `f`? -/
def layoutMatches (f : JbdFeat) (mem : TagMem) : Bool :=
  match mem with
  | .v1 _ _ => !f.incompat_csum_v3
  | .v3 _ _ => f.incompat_csum_v3

/-- `jbd_tag_bytes` (ext4_journal.c:329-354): size of a block tag, not
including the UUID part.  `sizeof(struct jbd_block_tag3) = 16`,
`sizeof(struct jbd_block_tag) = 12`, `sizeof(uint16_t) = 2`,
`sizeof(uint32_t) = 4`. -/
def jbd_tag_bytes (f : JbdFeat) : Int :=
  if f.incompat_csum_v3 then 16
  else
    let size : Int := 12
    let size := if f.incompat_csum_v2 then size + 2 else size
    if f.incompat_64bit then size
    else size - 4

/-- `jbd_extract_block_tag` (ext4_journal.c:380-449).  Reads the tag fields
out of `mem` and fills a `tag_info`; `t0` is the caller's `tag_info` value on
entry (the C function mutates it in place, leaving unwritten fields alone).
Returns the `(rc, tag_info)` pair. -/
def jbd_extract_block_tag (f : JbdFeat) (mem : TagMem) (tag_bytes : Int)
    (remain_buf_size : Int) (t0 : TagInfo) : Int × TagInfo :=
  let ti := { t0 with tag_bytes := tag_bytes, uuid_exist := false, last_tag := false }
  if remain_buf_size - tag_bytes < 0 then (eINVAL, ti)
  else if f.incompat_csum_v3 then
    match mem with
    | .v3 tag uuidArea =>
      let ti := { ti with block := tag.blocknr }
      let ti := if f.incompat_64bit then
          { ti with block := ti.block ||| (tag.blocknr_high <<< 32) }
        else ti
      let ti := if tag.flags &&& JBD_FLAG_ESCAPE ≠ 0 then { ti with block := 0 } else ti
      if tag.flags &&& JBD_FLAG_SAME_UUID = 0 then
        if remain_buf_size - tag_bytes < UUID_SIZE then (eINVAL, ti)
        else
          let ti := { ti with
            uuid_exist := true, tag_bytes := ti.tag_bytes + UUID_SIZE, uuid := uuidArea }
          let ti := if tag.flags &&& JBD_FLAG_LAST_TAG ≠ 0 then
              { ti with last_tag := true } else ti
          (eOK, ti)
      else
        let ti := if tag.flags &&& JBD_FLAG_LAST_TAG ≠ 0 then
            { ti with last_tag := true } else ti
        (eOK, ti)
    | .v1 _ _ => (eINVAL, ti)
  else
    match mem with
    | .v1 tag uuidArea =>
      let ti := { ti with block := tag.blocknr }
      let ti := if f.incompat_64bit then
          { ti with block := ti.block ||| (tag.blocknr_high <<< 32) }
        else ti
      let ti := if tag.flags &&& JBD_FLAG_ESCAPE ≠ 0 then { ti with block := 0 } else ti
      if tag.flags &&& JBD_FLAG_SAME_UUID = 0 then
        if remain_buf_size - tag_bytes < UUID_SIZE then (eINVAL, ti)
        else
          let ti := { ti with
            uuid_exist := true, tag_bytes := ti.tag_bytes + UUID_SIZE, uuid := uuidArea }
          let ti := if tag.flags &&& JBD_FLAG_LAST_TAG ≠ 0 then
              { ti with last_tag := true } else ti
          (eOK, ti)
      else
        let ti := if tag.flags &&& JBD_FLAG_LAST_TAG ≠ 0 then
            { ti with last_tag := true } else ti
        (eOK, ti)
    | .v3 _ _ => (eINVAL, ti)

/-- `jbd_write_block_tag` (ext4_journal.c:456-522).  Zero-fills the tag struct
(`memset`), stores the (truncated) block number, copies the UUID into the
area after the tag when `uuid_exist`, otherwise sets SAME_UUID, and finally
sets LAST_TAG when requested.  Returns `(rc, written memory, tag_info)`; the
C function updates `tag_info->tag_bytes` in place. -/
def jbd_write_block_tag (f : JbdFeat) (mem : TagMem) (remain_buf_size : Int)
    (t : TagInfo) : Int × TagMem × TagInfo :=
  let tag_bytes := jbd_tag_bytes f
  let t := { t with tag_bytes := tag_bytes }
  if remain_buf_size - tag_bytes < 0 then (eINVAL, mem, t)
  else if f.incompat_csum_v3 then
    let uuidArea := match mem with | .v1 _ u => u | .v3 _ u => u
    let tag : JbdBlockTag3 := { blocknr := 0, flags := 0, blocknr_high := 0, checksum := 0 }
    let tag := { tag with blocknr := t.block % 2 ^ 32 }
    let tag := if f.incompat_64bit then
        { tag with blocknr_high := (t.block >>> 32) % 2 ^ 32 }
      else tag
    if t.uuid_exist then
      if remain_buf_size - tag_bytes < UUID_SIZE then (eINVAL, .v3 tag uuidArea, t)
      else
        let t := { t with tag_bytes := t.tag_bytes + UUID_SIZE }
        let uuidArea := t.uuid
        let tag := if t.last_tag then
            { tag with flags := tag.flags ||| JBD_FLAG_LAST_TAG } else tag
        (eOK, .v3 tag uuidArea, t)
    else
      let tag := { tag with flags := tag.flags ||| JBD_FLAG_SAME_UUID }
      let tag := if t.last_tag then
          { tag with flags := tag.flags ||| JBD_FLAG_LAST_TAG } else tag
      (eOK, .v3 tag uuidArea, t)
  else
    let uuidArea := match mem with | .v1 _ u => u | .v3 _ u => u
    let tag : JbdBlockTag := { blocknr := 0, checksum := 0, flags := 0, blocknr_high := 0 }
    let tag := { tag with blocknr := t.block % 2 ^ 32 }
    let tag := if f.incompat_64bit then
        { tag with blocknr_high := (t.block >>> 32) % 2 ^ 32 }
      else tag
    if t.uuid_exist then
      if remain_buf_size - tag_bytes < UUID_SIZE then (eINVAL, .v1 tag uuidArea, t)
      else
        let t := { t with tag_bytes := t.tag_bytes + UUID_SIZE }
        let uuidArea := t.uuid
        let tag := if t.last_tag then
            { tag with flags := tag.flags ||| JBD_FLAG_LAST_TAG } else tag
        (eOK, .v1 tag uuidArea, t)
    else
      let tag := { tag with flags := tag.flags ||| JBD_FLAG_SAME_UUID }
      let tag := if t.last_tag then
          { tag with flags := tag.flags ||| JBD_FLAG_LAST_TAG } else tag
      (eOK, .v1 tag uuidArea, t)

/-! ## Replay model (recovery engine)

The journal contents and the block device are external inputs of the
recovery engine; a journal block is modelled pre-parsed according to the
on-disk format of the specification: a magic-validity bit, the header
`sequence` and `blocktype` fields, and the payload in the shape the relevant
pass consumes (descriptor tags, revoked block list, raw data, and the data
reinterpreted as an ext4 superblock for the escaped-tag path). -/

/-- Parsed view of one descriptor-block tag as consumed during replay:
`jbd_iterate_block_table` hands the visitor the tag's block number; the
LAST_TAG flag stops the iteration. -/
structure TagView where
  block : Nat
  last_tag : Bool
deriving DecidableEq

/-- The fields of the ext4 (filesystem) superblock touched by the journal. -/
structure ExtSb where
  state : Nat
  mount_count : Nat
  features_incompatible : Nat
  body : Nat
deriving DecidableEq

/-- One journal block as read through `jbd_block_get`, pre-parsed. -/
structure JDiskBlock where
  magicOk : Bool
  seq : Nat
  btype : Nat
  tags : List TagView
  revoked : List Nat
  data : Nat
  asSb : ExtSb
deriving DecidableEq

/-- The journal superblock fields consumed by the recovery engine. -/
structure JbdSbView where
  start : Nat
  sequence : Nat
  maxlen : Nat
  first : Nat
deriving DecidableEq

/-- The environment of the recovery engine: reading journal block `i`
(through the inode map, the cache, `jbd_block_get`) yields either an error
code or a parsed block; `ext4_block_get_noread` on an in-place block and
`ext4_sb_write` yield the given result codes. -/
structure REnv where
  log : Nat → Except Int JDiskBlock
  diskGetRc : Nat → Int
  sbWriteRc : Int

/-- The mutable state threaded through recovery: the journal superblock view,
the filesystem superblock, the journal dirty flag, the in-place writes
performed so far (most recent first) and the trace of journal blocks read. -/
structure RSt where
  jsb : JbdSbView
  fsSb : ExtSb
  jbdDirty : Bool
  disk : List (Nat × Nat)
  reads : List Nat
deriving DecidableEq

/-- `struct recover_info`. -/
structure RecoverInfo where
  start_trans_id : Nat
  last_trans_id : Nat
  this_trans_id : Nat
  revoke_root : List (Nat × Nat)
deriving DecidableEq

/-- Lookup in the revoke index (`jbd_revoke_entry_lookup`): the trans id
recorded for `blk`, if any. -/
def revokeLookup : List (Nat × Nat) → Nat → Option Nat
  | [], _ => none
  | (b, t) :: rest, blk => if b = blk then some t else revokeLookup rest blk

/-- Update-or-insert in the revoke index. -/
def revokeUpdate : List (Nat × Nat) → Nat → Nat → List (Nat × Nat)
  | [], blk, tid => [(blk, tid)]
  | (b, t) :: rest, blk, tid =>
    if b = blk then (b, tid) :: rest else (b, t) :: revokeUpdate rest blk tid

/-- `jbd_add_revoke_block_tags` (ext4_journal.c:673-694): if an entry for the
block exists already, overwrite its trans id with `info.this_trans_id`,
otherwise insert a fresh entry carrying `info.this_trans_id`. -/
def jbd_add_revoke_block_tags (info : RecoverInfo) (block : Nat) : RecoverInfo :=
  { info with revoke_root := revokeUpdate info.revoke_root block info.this_trans_id }

/-- `jbd_build_revoke_tree` (ext4_journal.c:722-754): insert every block
number listed in a revoke block. -/
def jbd_build_revoke_tree (blocks : List Nat) (info : RecoverInfo) : RecoverInfo :=
  blocks.foldl (fun i b => jbd_add_revoke_block_tags i b) info

/-- `jbd_replay_block_tags` (ext4_journal.c:601-667): the per-tag visitor of
the RECOVER pass.  Advances `this_block`, skips the tag when a revoke entry
with a strictly larger trans id exists, otherwise reads the journal copy and
writes it in place (or, for `block = 0`, into the filesystem superblock,
preserving `state` and `mount_count`).  Returns the new `(state, this_block)`
pair; all errors are swallowed (the C function returns `void`). -/
def jbd_replay_block_tags (env : REnv) (info : RecoverInfo) (this_trans_id : Nat)
    (block : Nat) (st : RSt) (this_block : Nat) : RSt × Nat :=
  let this_block := this_block + 1
  let skip : Bool :=
    match revokeLookup info.revoke_root block with
    | some tid => this_trans_id < tid
    | none => false
  if skip then (st, this_block)
  else
    match env.log this_block with
    | .error _ => ({ st with reads := st.reads ++ [this_block] }, this_block)
    | .ok jblk =>
      let st := { st with reads := st.reads ++ [this_block] }
      if block ≠ 0 then
        if env.diskGetRc block ≠ eOK then (st, this_block)
        else ({ st with disk := (block, jblk.data) :: st.disk }, this_block)
      else
        let mount_count := st.fsSb.mount_count
        let state := st.fsSb.state
        let st := { st with fsSb := { jblk.asSb with state := state } }
        if env.sbWriteRc ≠ eOK then (st, this_block)
        else ({ st with fsSb := { st.fsSb with mount_count := mount_count } }, this_block)

/-- The tags actually visited by `jbd_iterate_block_table`
(ext4_journal.c:524-573): the iteration stops after the first tag carrying
LAST_TAG.  (The size-exhaustion and decode-failure stops concern the raw
byte walk and are not reachable on a pre-parsed, well-formed tag list.) -/
def tagsUpToLast : List TagView → List TagView
  | [] => []
  | t :: ts => if t.last_tag then [t] else t :: tagsUpToLast ts

/-- `jbd_replay_descriptor_block` (ext4_journal.c:768-778): run the replay
visitor over every visited tag, threading the state and `this_block`. -/
def jbd_replay_descriptor_block (env : REnv) (info : RecoverInfo)
    (this_trans_id : Nat) (tags : List TagView) (st : RSt) (this_block : Nat) :
    RSt × Nat :=
  (tagsUpToLast tags).foldl
    (fun p tv => jbd_replay_block_tags env info this_trans_id tv.block p.1 p.2)
    (st, this_block)

/-- `jbd_debug_descriptor_block` (ext4_journal.c:756-766): the SCAN/REVOKE
visitor only advances `this_block` by one per visited tag. -/
def jbd_debug_descriptor_block (tags : List TagView) (this_block : Nat) : Nat :=
  this_block + (tagsUpToLast tags).length

/-- The three `action` values of `jbd_iterate_log`. -/
inductive JAction where
  | scan
  | revoke
  | recover
deriving DecidableEq

/-- The `wrap` macro (ext4_journal.c:708-712). -/
def wrapBlk (jsb : JbdSbView) (v : Nat) : Nat :=
  if v ≥ jsb.maxlen then v - (jsb.maxlen - jsb.first) else v

/-- The `while (!log_end)` loop of `jbd_iterate_log` (ext4_journal.c:802-889),
as a fuel-indexed recursion (`none` = the fuel ran out, i.e. the modelled run
was not long enough).  Returns the final `(r, info, this_trans_id,
this_block, state)`. -/
def iterLoop (env : REnv) (action : JAction) :
    Nat → Nat → RecoverInfo → Nat → Nat → RSt →
    Option (Int × RecoverInfo × Nat × Nat × RSt)
  | 0, _, _, _, _, _ => none
  | fuel + 1, start_block, info, this_trans_id, this_block, st =>
    if action ≠ JAction.scan ∧ this_trans_id > info.last_trans_id then
      some (eOK, info, this_trans_id, this_block, st)
    else
      match env.log this_block with
      | .error rc =>
        some (rc, info, this_trans_id, this_block,
              { st with reads := st.reads ++ [this_block] })
      | .ok b =>
        let st := { st with reads := st.reads ++ [this_block] }
        if b.magicOk = false then
          some (eOK, info, this_trans_id, this_block, st)
        else if b.seq ≠ this_trans_id then
          some (if action ≠ JAction.scan then eIOerr else eOK,
                info, this_trans_id, this_block, st)
        else
          let next : RecoverInfo × Nat × Nat × RSt × Bool :=
            if b.btype = JBD_DESCRIPTOR_BLOCK then
              if action = JAction.recover then
                let p := jbd_replay_descriptor_block env info this_trans_id b.tags
                           st this_block
                (info, this_trans_id, p.2, p.1, false)
              else
                (info, this_trans_id, jbd_debug_descriptor_block b.tags this_block,
                 st, false)
            else if b.btype = JBD_COMMIT_BLOCK then
              (info, this_trans_id + 1, this_block, st, false)
            else if b.btype = JBD_REVOKE_BLOCK then
              if action = JAction.revoke then
                let info := { info with this_trans_id := this_trans_id }
                (jbd_build_revoke_tree b.revoked info, this_trans_id, this_block,
                 st, false)
              else (info, this_trans_id, this_block, st, false)
            else (info, this_trans_id, this_block, st, true)
          match next with
          | (info, tid, blk, st, ended) =>
            let blk := wrapBlk st.jsb (blk + 1)
            if ended ∨ blk = start_block then some (eOK, info, tid, blk, st)
            else iterLoop env action fuel start_block info tid blk st

/-- `jbd_iterate_log` (ext4_journal.c:785-901): initialize the local
iteration variables from the journal superblock, run the loop and, for a
SCAN that ended without error, fill in `start_trans_id`/`last_trans_id`. -/
def jbd_iterate_log (env : REnv) (action : JAction) (fuel : Nat)
    (info : RecoverInfo) (st : RSt) :
    Option (Int × RecoverInfo × Nat × Nat × RSt) :=
  let start_trans_id := st.jsb.sequence
  let start_block := st.jsb.start
  match iterLoop env action fuel start_block info start_trans_id start_block st with
  | none => none
  | some (r, info, tid, blk, st) =>
    if r = eOK ∧ action = JAction.scan then
      let info := { info with
        start_trans_id := start_trans_id,
        last_trans_id := if tid > start_trans_id then tid - 1 else tid }
      some (r, info, tid, blk, st)
    else some (r, info, tid, blk, st)

/-- The `EXT4_FINCOM_RECOVER` incompatible-feature bit of the filesystem
superblock. -/
def EXT4_FINCOM_RECOVER : Nat := 0x4

/-- `jbd_recover` (ext4_journal.c:906-944): nothing to do when the journal
superblock's `start` is zero; otherwise run the SCAN, REVOKE and RECOVER
passes and, on success, clear `EXT4_FINCOM_RECOVER`, zero `sb.start`, mark
the journal superblock dirty and rewrite the filesystem superblock.  The
`recover_info` locals start out uninitialized in C; the model zero-fills
them (SCAN overwrites `start_trans_id`/`last_trans_id` before any use, and
the revoke root is explicitly `RB_INIT`ed). -/
def jbd_recover (env : REnv) (fuel : Nat) (st : RSt) : Option (Int × RSt) :=
  if st.jsb.start = 0 then some (eOK, st)
  else
    let info0 : RecoverInfo :=
      { start_trans_id := 0, last_trans_id := 0, this_trans_id := 0, revoke_root := [] }
    match jbd_iterate_log env JAction.scan fuel info0 st with
    | none => none
    | some (r, info, _, _, st) =>
      if r ≠ eOK then some (r, st)
      else
        match jbd_iterate_log env JAction.revoke fuel info st with
        | none => none
        | some (r, info, _, _, st) =>
          if r ≠ eOK then some (r, st)
          else
            match jbd_iterate_log env JAction.recover fuel info st with
            | none => none
            | some (r, _, _, _, st) =>
              if r = eOK then
                let features_incompatible := st.fsSb.features_incompatible
                let st := { st with jsb := { st.jsb with start := 0 } }
                let features_incompatible := features_incompatible &&& 0xFFFFFFFB
                let st := { st with
                  fsSb := { st.fsSb with features_incompatible := features_incompatible },
                  jbdDirty := true }
                some (env.sbWriteRc, st)
              else some (r, st)

/-! ## Live journal model

The live journal's heap objects are modelled explicitly: transactions,
`jbd_buf`s and block records live in association lists keyed by allocation
tokens (for the list-linked objects the C code identifies by pointer) or by
LBA (for the maps the C code keys by block address).  The buffer cache is a
map from device LBA to a buffer record.  Fallible external calls (inode
bmap, cache get, device write) consume a result-code oracle; `calloc`
consumes a success oracle.  Journal block payload bytes are not tracked: the
codec model above is still invoked for its result code and tag size, which
are what drive the control flow of `jbd_journal_prepare`. -/

/-- Association-list lookup (first binding wins; keys are kept unique). -/
def alget {α : Type} : List (Nat × α) → Nat → Option α
  | [], _ => none
  | (k, v) :: rest, key => if k = key then some v else alget rest key

/-- Association-list update-or-insert. -/
def alset {α : Type} : List (Nat × α) → Nat → α → List (Nat × α)
  | [], key, v => [(key, v)]
  | (k, w) :: rest, key, v =>
    if k = key then (k, v) :: rest else (k, w) :: alset rest key v

/-- Association-list removal of the binding for `key` (if any). -/
def alerase {α : Type} : List (Nat × α) → Nat → List (Nat × α)
  | [], _ => []
  | (k, w) :: rest, key => if k = key then rest else (k, w) :: alerase rest key

/-- One buffer-cache entry (`struct ext4_buf`, external contract): the dirty
flag, the `BC_FLUSH` write-through flag, the journal's write-completion
callback (`end_write`/`end_write_arg`; `some id` means `jbd_trans_end_write`
is installed with the `jbd_buf` of token `id` as its argument), the reference
count, and the (opaque) cached block content. -/
structure ExtBuf where
  dirty : Bool
  flushFlag : Bool
  end_write : Option Nat
  refcnt : Nat
  data : Nat
deriving DecidableEq

/-- A fresh cache entry. -/
def ExtBuf.init : ExtBuf :=
  { dirty := false, flushFlag := false, end_write := none, refcnt := 0, data := 0 }

/-- `struct jbd_buf`: the owning transaction's token and the captured block
descriptor (its LBA; the cache is keyed by LBA).  The block-record pointer is
recovered by LBA lookup, which is faithful because at most one block record
exists per LBA. -/
structure JbdBufM where
  transTok : Nat
  lba : Nat
deriving DecidableEq

/-- `struct jbd_block_rec`: in-place LBA, the live buffer pointer (modelled
as `some lba` while set, `none` once flushed) and the owning transaction's
token. -/
structure BlockRecM where
  lba : Nat
  buf : Option Nat
  transTok : Nat
deriving DecidableEq

/-- `struct jbd_trans`. -/
structure TransM where
  trans_id : Nat
  start_iblock : Nat
  alloc_blocks : Nat
  data_cnt : Nat
  written_cnt : Nat
  buf_list : List Nat
  revoke_list : List Nat
  error : Int
deriving DecidableEq

/-- `struct jbd_journal` (queues hold transaction tokens, FIFO order). -/
structure JournalM where
  first : Nat
  start : Nat
  last : Nat
  trans_id : Nat
  alloc_trans_id : Nat
  block_size : Nat
  trans_queue : List Nat
  cp_queue : List Nat
deriving DecidableEq

/-- The journal superblock fields used by the live journal. -/
structure JbdSbLive where
  start : Nat
  sequence : Nat
  maxlen : Nat
  first : Nat
  uuid : List Nat
  feat : JbdFeat
  dirtySb : Bool
deriving DecidableEq

/-- The complete live-journal state: journal, journal superblock, the three
heaps (transactions, `jbd_buf`s, block records), the buffer cache, the token
allocator, the two oracles, and the journal inode's block map (external). -/
structure JSt where
  journal : JournalM
  jsb : JbdSbLive
  transes : List (Nat × TransM)
  jbufs : List (Nat × JbdBufM)
  recs : List (Nat × BlockRecM)
  cache : List (Nat × ExtBuf)
  nextId : Nat
  ioOracle : List Int
  allocOracle : List Bool
  bmap : Nat → Nat

/-- Pop the next device-operation result code (empty oracle = all further
operations succeed). -/
def popIO (st : JSt) : Int × JSt :=
  match st.ioOracle with
  | [] => (eOK, st)
  | r :: rest => (r, { st with ioOracle := rest })

/-- Pop the next allocation result (empty oracle = all further allocations
succeed). -/
def popAlloc (st : JSt) : Bool × JSt :=
  match st.allocOracle with
  | [] => (true, st)
  | b :: rest => (b, { st with allocOracle := rest })

/-- Read a cache entry. -/
def cacheGet (st : JSt) (lba : Nat) : ExtBuf :=
  (alget st.cache lba).getD ExtBuf.init

/-- Modify a cache entry in place. -/
def cacheMod (st : JSt) (lba : Nat) (f : ExtBuf → ExtBuf) : JSt :=
  { st with cache := alset st.cache lba (f (cacheGet st lba)) }

/-- The `wrap` macro over the live journal superblock. -/
def wrapLive (jsb : JbdSbLive) (v : Nat) : Nat :=
  if v ≥ jsb.maxlen then v - (jsb.maxlen - jsb.first) else v

/-- Transaction lookup. -/
def getTrans (st : JSt) (tok : Nat) : Option TransM :=
  alget st.transes tok

/-- Transaction update. -/
def setTrans (st : JSt) (tok : Nat) (tr : TransM) : JSt :=
  { st with transes := alset st.transes tok tr }

/-- `jbd_journal_write_sb` (ext4_journal.c:946-952): copy `journal.start` and
`journal.trans_id` into the journal superblock and mark it dirty. -/
def jbd_journal_write_sb (st : JSt) : JSt :=
  { st with jsb := { st.jsb with
      start := st.journal.start, sequence := st.journal.trans_id, dirtySb := true } }

/-- `jbd_sb_write` (ext4_journal.c:125-138): an inode bmap followed by a raw
device write, each fallible. -/
def jbd_sb_write (st : JSt) : Int × JSt :=
  let p := popIO st
  if p.1 ≠ eOK then p
  else popIO p.2

/-- `jbd_write_sb` (ext4_journal.c:178-189). -/
def jbd_write_sb (st : JSt) : Int × JSt :=
  if st.jsb.dirtySb then
    let p := jbd_sb_write st
    if p.1 ≠ eOK then p
    else (p.1, { p.2 with jsb := { p.2.jsb with dirtySb := false } })
  else (eOK, st)

/-- `jbd_trans_remove_block_rec` (ext4_journal.c:1177-1190): remove the block
record of this `jbd_buf`'s LBA only if the record still belongs to the
`jbd_buf`'s transaction. -/
def jbd_trans_remove_block_rec (st : JSt) (jb : JbdBufM) : JSt :=
  match alget st.recs jb.lba with
  | some r =>
    if r.transTok = jb.transTok then { st with recs := alerase st.recs jb.lba }
    else st
  | none => st

/-- One iteration of the `jbd_journal_free_trans` buffer loop in the
non-abort case: remove the block record (if owned) and free the `jbd_buf`. -/
def freeTransBufNoAbort (st : JSt) (bufId : Nat) : JSt :=
  match alget st.jbufs bufId with
  | none => st
  | some jb =>
    let st := jbd_trans_remove_block_rec st jb
    { st with jbufs := alerase st.jbufs bufId }

/-- `jbd_journal_free_trans(journal, trans, false)` (ext4_journal.c:1286-1313
with `abort` false): free every `jbd_buf` (removing owned block records),
free the revoke records, free the transaction.  The abort variant is defined
further below, after the cache operations it needs. -/
def jbd_journal_free_trans_noabort (st : JSt) (tok : Nat) : JSt :=
  match getTrans st tok with
  | none => st
  | some tr =>
    let st := tr.buf_list.foldl freeTransBufNoAbort st
    { st with transes := alerase st.transes tok }

/-- `jbd_journal_skip_pure_revoke` (ext4_journal.c:1002-1013). -/
def jbd_journal_skip_pure_revoke (st : JSt) (tok : Nat) : JSt :=
  match getTrans st tok with
  | none => st
  | some tr =>
    let st := { st with journal := { st.journal with
      start := wrapLive st.jsb (tr.start_iblock + tr.alloc_blocks),
      trans_id := tr.trans_id + 1 } }
    let st := jbd_journal_free_trans_noabort st tok
    jbd_journal_write_sb st

/-- The head-draining `while` loop at the end of `jbd_trans_end_write`
(ext4_journal.c:1593-1607): pop pure-revoke transactions off the checkpoint
queue head; stop at the first transaction with data, re-pointing
`journal.start` at it.  Recursion is bounded by the queue length. -/
def drainCpAux : Nat → JSt → JSt
  | 0, st => st
  | n + 1, st =>
    match st.journal.cp_queue with
    | [] => st
    | tok :: rest =>
      match getTrans st tok with
      | none => st
      | some tr =>
        if tr.data_cnt = 0 then
          let st := { st with journal := { st.journal with cp_queue := rest } }
          let st := jbd_journal_skip_pure_revoke st tok
          drainCpAux n st
        else
          { st with journal := { st.journal with
              start := wrapLive st.jsb tr.start_iblock,
              trans_id := tr.trans_id } }

/-- `jbd_trans_end_write` (ext4_journal.c:1559-1612): the journal's
write-completion callback, invoked by the buffer cache when the in-place
write of a journaled buffer completes with result `res`;  `bufId` is the
`end_write_arg`. -/
def jbd_trans_end_write (st : JSt) (res : Int) (bufId : Nat) : JSt :=
  match alget st.jbufs bufId with
  | none => st
  | some jb =>
    match getTrans st jb.transTok with
    | none => st
    | some tr =>
      let first_in_queue := st.journal.cp_queue.head? = some jb.transTok
      let tr := if res ≠ eOK then { tr with error := res } else tr
      let tr := { tr with buf_list := tr.buf_list.erase bufId }
      let st :=
        match alget st.recs jb.lba with
        | some r => { st with recs := alset st.recs jb.lba { r with buf := none } }
        | none => st
      let st := jbd_trans_remove_block_rec st jb
      let st := { st with jbufs := alerase st.jbufs bufId }
      let st := cacheMod st jb.lba (fun b => { b with end_write := none })
      let tr := { tr with written_cnt := tr.written_cnt + 1 }
      let st := setTrans st jb.transTok tr
      if tr.written_cnt = tr.data_cnt then
        let st := { st with journal := { st.journal with
          cp_queue := st.journal.cp_queue.erase jb.transTok } }
        let st :=
          if first_in_queue then
            { st with journal := { st.journal with
                start := wrapLive st.jsb (tr.start_iblock + tr.alloc_blocks),
                trans_id := tr.trans_id + 1 } }
          else st
        let st := jbd_journal_free_trans_noabort st jb.transTok
        if first_in_queue then
          let st := drainCpAux st.journal.cp_queue.length st
          let st := jbd_journal_write_sb st
          (jbd_write_sb st).2
        else st
      else st

/-- `ext4_block_flush_buf` (external contract, §6 of the spec): a clean
buffer is a no-op; a dirty buffer is written to the device (one oracle pop),
cleared on success, and the end-of-write callback — if installed — is
invoked with the write's result. -/
def ext4_block_flush_buf (st : JSt) (lba : Nat) : Int × JSt :=
  let b := cacheGet st lba
  if b.dirty = false then (eOK, st)
  else
    let p := popIO st
    let rc := p.1
    let st := p.2
    let st := if rc = eOK then cacheMod st lba (fun bb => { bb with dirty := false }) else st
    let st :=
      match (cacheGet st lba).end_write with
      | some bufId => jbd_trans_end_write st rc bufId
      | none => st
    (rc, st)

/-- `ext4_block_set` (external contract): drop one reference; when the last
reference of a `BC_FLUSH` buffer is dropped, the buffer is written through
immediately (this is how journal descriptor/data/commit blocks reach the
disk before the commit returns). -/
def ext4_block_set (st : JSt) (lba : Nat) : Int × JSt :=
  let b := cacheGet st lba
  let st := cacheMod st lba (fun bb => { bb with refcnt := bb.refcnt - 1 })
  if b.refcnt - 1 = 0 ∧ b.flushFlag then ext4_block_flush_buf st lba
  else (eOK, st)

/-- One iteration of the `jbd_journal_free_trans` buffer loop in the abort
case: clear the callback and its argument, clear the dirty bit, release the
cache reference, remove the owned block record, free the `jbd_buf`. -/
def freeTransBufAbort (st : JSt) (bufId : Nat) : JSt :=
  match alget st.jbufs bufId with
  | none => st
  | some jb =>
    let st := cacheMod st jb.lba (fun b => { b with end_write := none })
    let st := cacheMod st jb.lba (fun b => { b with dirty := false })
    let st := (ext4_block_set st jb.lba).2
    let st := jbd_trans_remove_block_rec st jb
    { st with jbufs := alerase st.jbufs bufId }

/-- `jbd_journal_free_trans` (ext4_journal.c:1286-1313).  The non-abort case
is `jbd_journal_free_trans_noabort` above; the two cases are split only
because the abort case releases cache references, whose write-through path
reaches the end-of-write callback (which in turn frees transactions without
abort) — a definitional cycle that is dynamically unreachable here because
the abort path clears the callback and the dirty bit before releasing. -/
def jbd_journal_free_trans (st : JSt) (tok : Nat) (abort : Bool) : JSt :=
  if abort then
    match getTrans st tok with
    | none => st
    | some tr =>
      let st := tr.buf_list.foldl freeTransBufAbort st
      { st with transes := alerase st.transes tok }
  else jbd_journal_free_trans_noabort st tok

/-- `jbd_journal_flush_trans` (ext4_journal.c:990-1000): flush every buffer
of the transaction (safe iteration over a snapshot of the list; a buffer
whose `jbd_buf` has already been freed by its own completion callback is
skipped). -/
def jbd_journal_flush_trans (st : JSt) (tok : Nat) : JSt :=
  match getTrans st tok with
  | none => st
  | some tr =>
    tr.buf_list.foldl
      (fun st bufId =>
        match alget st.jbufs bufId with
        | none => st
        | some jb => (ext4_block_flush_buf st jb.lba).2)
      st

/-- `jbd_journal_flush_all_trans` (ext4_journal.c:1015-1028), fuel-indexed
(`none` = the modelled run was not long enough to drain the queue). -/
def jbd_journal_flush_all_trans : Nat → JSt → Option JSt
  | 0, _ => none
  | fuel + 1, st =>
    match st.journal.cp_queue with
    | [] => some st
    | tok :: rest =>
      match getTrans st tok with
      | none => none
      | some tr =>
        if tr.data_cnt = 0 then
          let st := { st with journal := { st.journal with cp_queue := rest } }
          let st := jbd_journal_skip_pure_revoke st tok
          jbd_journal_flush_all_trans fuel st
        else
          let st := jbd_journal_flush_trans st tok
          jbd_journal_flush_all_trans fuel st

/-- `jbd_journal_alloc_block` (ext4_journal.c:1075-1090): hand out
`journal.last`, advance and wrap it, and drive a full checkpoint flush when
the log becomes full. -/
def jbd_journal_alloc_block (fuel : Nat) (st : JSt) (tok : Nat) :
    Option (Nat × JSt) :=
  match getTrans st tok with
  | none => none
  | some tr =>
    let start_block := st.journal.last
    let st := { st with journal := { st.journal with last := st.journal.last + 1 } }
    let st := setTrans st tok { tr with alloc_blocks := tr.alloc_blocks + 1 }
    let st := { st with journal := { st.journal with
      last := wrapLive st.jsb st.journal.last } }
    if st.journal.last = st.journal.start then
      match jbd_journal_flush_all_trans fuel st with
      | none => none
      | some st => some (start_block, st)
    else some (start_block, st)

/-- `jbd_block_get_noread` (ext4_journal.c:294-312): inode bmap (fallible),
cache get (fallible, takes a reference), then set `BC_FLUSH`.  Returns
`(rc, device lba, state)`. -/
def jbd_block_get_noread (st : JSt) (iblock : Nat) : Int × Nat × JSt :=
  let p := popIO st
  if p.1 ≠ eOK then (p.1, 0, p.2)
  else
    let st := p.2
    let lba := st.bmap iblock
    let q := popIO st
    if q.1 ≠ eOK then (q.1, lba, q.2)
    else
      let st := cacheMod q.2 lba (fun b => { b with refcnt := b.refcnt + 1, flushFlag := true })
      (eOK, lba, st)

/-- `jbd_block_set` (ext4_journal.c:318-323): plain `ext4_block_set` on the
underlying device. -/
def jbd_block_set (st : JSt) (lba : Nat) : Int × JSt :=
  ext4_block_set st lba

/-- `jbd_trans_insert_block_rec` (ext4_journal.c:1152-1175): take over an
existing record for this LBA, or allocate a fresh one (fallibly).  Returns
`(succeeded, state)` — `false` models the NULL return. -/
def jbd_trans_insert_block_rec (st : JSt) (tok : Nat) (lba : Nat) : Bool × JSt :=
  match alget st.recs lba with
  | some r => (true, { st with recs := alset st.recs lba { r with transTok := tok } })
  | none =>
    let p := popAlloc st
    if p.1 = false then (false, p.2)
    else
      let newRec : BlockRecM := { lba := lba, buf := some lba, transTok := tok }
      (true, { p.2 with recs := alset p.2.recs lba newRec })

/-- `jbd_trans_set_block_dirty` (ext4_journal.c:1196-1231). -/
def jbd_trans_set_block_dirty (st : JSt) (tok : Nat) (lba : Nat) : Int × JSt :=
  let b := cacheGet st lba
  if b.dirty = false ∧ b.end_write = none then
    match getTrans st tok with
    | none => (eOK, st)
    | some tr =>
      let p := popAlloc st
      if p.1 = false then (eNOMEM, p.2)
      else
        match jbd_trans_insert_block_rec p.2 tok lba with
        | (false, st) => (eNOMEM, st)
        | (true, st) =>
          let bufId := st.nextId
          let st := { st with nextId := st.nextId + 1 }
          let st := { st with jbufs := alset st.jbufs bufId { transTok := tok, lba := lba } }
          let st := cacheMod st lba (fun b => { b with refcnt := b.refcnt + 1 })
          let st := cacheMod st lba (fun b => { b with end_write := some bufId })
          let tr := { tr with data_cnt := tr.data_cnt + 1, buf_list := bufId :: tr.buf_list }
          let st := setTrans st tok tr
          let st := cacheMod st lba (fun b => { b with dirty := true })
          (eOK, st)
  else (eOK, st)

/-- `jbd_trans_revoke_block` (ext4_journal.c:1237-1248). -/
def jbd_trans_revoke_block (st : JSt) (tok : Nat) (lba : Nat) : Int × JSt :=
  let p := popAlloc st
  if p.1 = false then (eNOMEM, p.2)
  else
    match getTrans p.2 tok with
    | none => (eOK, p.2)
    | some tr => (eOK, setTrans p.2 tok { tr with revoke_list := lba :: tr.revoke_list })

/-- Scratch tag memory handed to `jbd_write_block_tag` inside
`jbd_journal_prepare` (the payload bytes of journal blocks are not tracked;
only the codec's result code and tag size are consumed). -/
def tagMemScratch (f : JbdFeat) : TagMem :=
  if f.incompat_csum_v3 then
    .v3 { blocknr := 0, flags := 0, blocknr_high := 0, checksum := 0 } []
  else
    .v1 { blocknr := 0, checksum := 0, flags := 0, blocknr_high := 0 } []

/-- The per-buffer loop of `jbd_journal_prepare` (ext4_journal.c:1361-1441),
fuel-indexed.  Arguments after the fuel: state, transaction token, remaining
buffer list, `desc_iblock` (0 = no open descriptor), the open descriptor's
device LBA, `tag_tbl_size`, and the counter `i`.  The `goto again` retry of
the C code re-runs the current iteration with `desc_iblock = 0`, which is
observationally identical to re-entering the loop body on the same element. -/
def prepLoop : Nat → JSt → Nat → List Nat → Nat → Nat → Int → Nat →
    Option (Int × JSt)
  | 0, _, _, _, _, _, _, _ => none
  | _ + 1, st, _, [], desc_iblock, descLba, _, _ =>
    if desc_iblock ≠ 0 then some (eOK, (jbd_block_set st descLba).2)
    else some (eOK, st)
  | fuel + 1, st, tok, bufId :: rest, desc_iblock, descLba, tag_tbl_size, i =>
    match alget st.jbufs bufId with
    | none => none
    | some jb =>
      if (cacheGet st jb.lba).dirty = false then
        let st := cacheMod st jb.lba (fun b => { b with end_write := none })
        let st := (ext4_block_set st jb.lba).2
        let st :=
          match getTrans st tok with
          | some tr => setTrans st tok { tr with buf_list := tr.buf_list.erase bufId }
          | none => st
        let st := { st with jbufs := alerase st.jbufs bufId }
        prepLoop fuel st tok rest desc_iblock descLba tag_tbl_size i
      else
        let opened : Option (Sum (Int × JSt) (JSt × Nat × Nat × Int × Bool)) :=
          if desc_iblock = 0 then
            match jbd_journal_alloc_block fuel st tok with
            | none => none
            | some (di, st) =>
              match jbd_block_get_noread st di with
              | (rc, dlba, st) =>
                if rc ≠ eOK then some (.inl (rc, st))
                else
                  let st := cacheMod st dlba (fun b => { b with dirty := true })
                  let st :=
                    match getTrans st tok with
                    | some tr =>
                      if tr.start_iblock = 0 then
                        setTrans st tok { tr with start_iblock := di }
                      else st
                    | none => st
                  some (.inr (st, di, dlba, (st.journal.block_size : Int) - 12, true))
          else some (.inr (st, desc_iblock, descLba, tag_tbl_size, false))
        match opened with
        | none => none
        | some (.inl r) => some r
        | some (.inr (st, desc_iblock, descLba, tag_tbl_size, uuid_exist)) =>
          match getTrans st tok with
          | none => none
          | some tr =>
            let tag_info : TagInfo :=
              { tag_bytes := 0, block := jb.lba, uuid_exist := uuid_exist,
                uuid := if uuid_exist then st.jsb.uuid else [],
                last_tag := i = tr.data_cnt - 1 }
            match jbd_write_block_tag st.jsb.feat (tagMemScratch st.jsb.feat)
                    tag_tbl_size tag_info with
            | (rc, _, tag_info) =>
              if rc ≠ eOK then
                let st := (jbd_block_set st descLba).2
                prepLoop fuel st tok (bufId :: rest) 0 0 tag_tbl_size i
              else
                match jbd_journal_alloc_block fuel st tok with
                | none => none
                | some (data_iblock, st) =>
                  match jbd_block_get_noread st data_iblock with
                  | (rc2, dataLba, st) =>
                    if rc2 ≠ eOK then some (rc2, st)
                    else
                      let st := cacheMod st dataLba (fun b => { b with dirty := true })
                      let src := (cacheGet st jb.lba).data
                      let st := cacheMod st dataLba (fun b => { b with data := src })
                      match jbd_block_set st dataLba with
                      | (rc3, st) =>
                        if rc3 ≠ eOK then some (rc3, st)
                        else
                          prepLoop fuel st tok rest desc_iblock descLba
                            (tag_tbl_size - tag_info.tag_bytes) (i + 1)

/-- `jbd_journal_prepare` (ext4_journal.c:1349-1446). -/
def jbd_journal_prepare (fuel : Nat) (st : JSt) (tok : Nat) : Option (Int × JSt) :=
  match getTrans st tok with
  | none => none
  | some tr => prepLoop fuel st tok tr.buf_list 0 0 0 0

/-- The per-record loop of `jbd_journal_prepare_revoke`
(ext4_journal.c:1469-1519), fuel-indexed; `record_len` is 8 with the 64BIT
feature and 4 otherwise.  `sizeof(struct jbd_revoke_header) = 16` (12-byte
header plus the 4-byte count).  The revoke block's payload bytes (the packed
LBAs and the final `count` field) are not tracked. -/
def prepRevLoop (record_len : Int) : Nat → JSt → Nat → List Nat → Nat → Nat → Int →
    Option (Int × JSt)
  | 0, _, _, _, _, _, _ => none
  | _ + 1, st, _, [], desc_iblock, descLba, _ =>
    if desc_iblock ≠ 0 then some (eOK, (jbd_block_set st descLba).2)
    else some (eOK, st)
  | fuel + 1, st, tok, lba :: rest, desc_iblock, descLba, tag_tbl_size =>
    let opened : Option (Sum (Int × JSt) (JSt × Nat × Nat × Int)) :=
      if desc_iblock = 0 then
        match jbd_journal_alloc_block fuel st tok with
        | none => none
        | some (di, st) =>
          match jbd_block_get_noread st di with
          | (rc, dlba, st) =>
            if rc ≠ eOK then some (.inl (rc, st))
            else
              let st := cacheMod st dlba (fun b => { b with dirty := true })
              let st :=
                match getTrans st tok with
                | some tr =>
                  if tr.start_iblock = 0 then
                    setTrans st tok { tr with start_iblock := di }
                  else st
                | none => st
              some (.inr (st, di, dlba, (st.journal.block_size : Int) - 16))
      else some (.inr (st, desc_iblock, descLba, tag_tbl_size))
    match opened with
    | none => none
    | some (.inl r) => some r
    | some (.inr (st, desc_iblock, descLba, tag_tbl_size)) =>
      if tag_tbl_size < record_len then
        let st := (jbd_block_set st descLba).2
        prepRevLoop record_len fuel st tok (lba :: rest) 0 0 tag_tbl_size
      else
        prepRevLoop record_len fuel st tok rest desc_iblock descLba
          (tag_tbl_size - record_len)

/-- `jbd_journal_prepare_revoke` (ext4_journal.c:1452-1529). -/
def jbd_journal_prepare_revoke (fuel : Nat) (st : JSt) (tok : Nat) :
    Option (Int × JSt) :=
  let record_len : Int := if st.jsb.feat.incompat_64bit then 8 else 4
  match getTrans st tok with
  | none => none
  | some tr => prepRevLoop record_len fuel st tok tr.revoke_list 0 0 0

/-- `jbd_trans_write_commit_block` (ext4_journal.c:1318-1343).  The commit
header fields written into the payload are not tracked. -/
def jbd_trans_write_commit_block (fuel : Nat) (st : JSt) (tok : Nat) :
    Option (Int × JSt) :=
  match jbd_journal_alloc_block fuel st tok with
  | none => none
  | some (commit_iblock, st) =>
    match jbd_block_get_noread st commit_iblock with
    | (rc, lba, st) =>
      if rc ≠ eOK then some (rc, st)
      else
        let st := cacheMod st lba (fun b => { b with dirty := true })
        match jbd_block_set st lba with
        | (rc, st) =>
          if rc ≠ eOK then some (rc, st)
          else some (eOK, st)

/-- `jbd_journal_cp_trans` (ext4_journal.c:1546-1555): release the cache
reference of every buffer of the transaction. -/
def jbd_journal_cp_trans (st : JSt) (tok : Nat) : JSt :=
  match getTrans st tok with
  | none => st
  | some tr =>
    tr.buf_list.foldl
      (fun st bufId =>
        match alget st.jbufs bufId with
        | none => st
        | some jb => (ext4_block_set st jb.lba).2)
      st

/-- The `Finish` label of `jbd_journal_commit_trans` on the failing paths
(ext4_journal.c:1672-1677): restore `journal.last` to its value on entry and
free the transaction in abort mode. -/
def commitFinishFail (st : JSt) (tok : Nat) (last : Nat) : JSt :=
  jbd_journal_free_trans
    { st with journal := { st.journal with last := last } } tok true

/-- `jbd_journal_commit_trans` (ext4_journal.c:1618-1678). -/
def jbd_journal_commit_trans (fuel : Nat) (st : JSt) (tok : Nat) :
    Option (Int × JSt) :=
  match getTrans st tok with
  | none => none
  | some tr0 =>
    let last := st.journal.last
    let st := setTrans st tok { tr0 with trans_id := st.journal.alloc_trans_id }
    match jbd_journal_prepare fuel st tok with
    | none => none
    | some (rc, st) =>
      if rc ≠ eOK then some (rc, commitFinishFail st tok last)
      else
        match jbd_journal_prepare_revoke fuel st tok with
        | none => none
        | some (rc, st) =>
          if rc ≠ eOK then some (rc, commitFinishFail st tok last)
          else
            match getTrans st tok with
            | none => none
            | some tr =>
              if tr.buf_list = [] ∧ tr.revoke_list = [] then
                some (eOK, jbd_journal_free_trans st tok false)
              else
                match jbd_trans_write_commit_block fuel st tok with
                | none => none
                | some (rc, st) =>
                  if rc ≠ eOK then some (rc, commitFinishFail st tok last)
                  else
                    let st := { st with journal := { st.journal with
                      alloc_trans_id := st.journal.alloc_trans_id + 1 } }
                    match getTrans st tok with
                    | none => none
                    | some tr =>
                      if st.journal.cp_queue = [] then
                        if tr.data_cnt ≠ 0 then
                          let st := { st with journal := { st.journal with
                            start := wrapLive st.jsb tr.start_iblock,
                            trans_id := tr.trans_id } }
                          let st := jbd_journal_write_sb st
                          let st := (jbd_write_sb st).2
                          let st := { st with journal := { st.journal with
                            cp_queue := st.journal.cp_queue ++ [tok] } }
                          let st := jbd_journal_cp_trans st tok
                          some (eOK, st)
                        else
                          let st := { st with journal := { st.journal with
                            start := wrapLive st.jsb (tr.start_iblock + tr.alloc_blocks),
                            trans_id := tr.trans_id + 1 } }
                          let st := jbd_journal_write_sb st
                          some (eOK, jbd_journal_free_trans st tok false)
                      else
                        let st := { st with journal := { st.journal with
                          cp_queue := st.journal.cp_queue ++ [tok] } }
                        let st := if tr.data_cnt ≠ 0 then jbd_journal_cp_trans st tok else st
                        some (eOK, st)

/-! ## Mount model (`jbd_get_fs`) -/

/-- The journal superblock header fields checked by `jbd_verify_sb`. -/
structure JbdSbHdr where
  magic : Nat
  blocktype : Nat
deriving DecidableEq

/-- The slice of `struct jbd_fs` relevant to mounting: the loaded superblock
header, the inode reference (represented by the referenced inode number; `0`
after `memset`) and the dirty flag. -/
structure JbdFsM where
  sb : JbdSbHdr
  inode_ref_inum : Nat
  dirty : Bool
deriving DecidableEq

/-- A zero-filled `struct jbd_fs` (`memset(jbd_fs, 0, sizeof ...)`). -/
def jbdFsZero : JbdFsM := { sb := { magic := 0, blocktype := 0 }, inode_ref_inum := 0,
                            dirty := false }

/-- The external inputs of `jbd_get_fs`: the journal inode number from the
filesystem superblock, the result of `ext4_fs_get_inode_ref`, and the result
and content of the superblock read. -/
structure MountEnv where
  journal_inode_number : Nat
  getInodeRefRc : Int
  sbReadRc : Int
  sbRead : JbdSbHdr
deriving DecidableEq

/-- The bookkeeping state of the mount model: the multiset of inode
references currently held (as a list of inode numbers). -/
structure MountSt where
  heldRefs : List Nat
deriving DecidableEq

/-- `ext4_fs_put_inode_ref` (external contract): release the reference named
by the `inode_ref` struct handed to it, i.e. drop one occurrence of the
inode number recorded in that struct. -/
def ext4_fs_put_inode_ref (st : MountSt) (inum : Nat) : MountSt :=
  { st with heldRefs := st.heldRefs.erase inum }

/-- `jbd_verify_sb` (ext4_journal.c:162-173). -/
def jbd_verify_sb (sb : JbdSbHdr) : Bool :=
  if sb.magic ≠ JBD_MAGIC_NUMBER then false
  else if sb.blocktype ≠ JBD_SUPERBLOCK ∧ sb.blocktype ≠ JBD_SUPERBLOCK_V2 then false
  else true

/-- `jbd_get_fs` (ext4_journal.c:195-227).  Note the source order on the two
late failure paths: the `memset` that zeroes `*jbd_fs` happens *before*
`ext4_fs_put_inode_ref(&jbd_fs->inode_ref)`, so the put acts on the
already-zeroed reference (inode number 0).  Returns
`(rc, jbd_fs, reference state)`. -/
def jbd_get_fs (env : MountEnv) (st : MountSt) : Int × JbdFsM × MountSt :=
  let jfs := jbdFsZero
  let journal_ino := env.journal_inode_number
  if env.getInodeRefRc ≠ eOK then (env.getInodeRefRc, jbdFsZero, st)
  else
    let st := { st with heldRefs := st.heldRefs ++ [journal_ino] }
    let jfs := { jfs with inode_ref_inum := journal_ino }
    if env.sbReadRc ≠ eOK then
      let jfs := jbdFsZero
      let st := ext4_fs_put_inode_ref st jfs.inode_ref_inum
      (env.sbReadRc, jfs, st)
    else
      let jfs := { jfs with sb := env.sbRead }
      if jbd_verify_sb jfs.sb = false then
        let jfs := jbdFsZero
        let st := ext4_fs_put_inode_ref st jfs.inode_ref_inum
        (eIOerr, jfs, st)
      else (eOK, jfs, st)

/-! ## Specification-side functions and concrete inputs -/

/-- Specification function for the SCAN pass: the number of commit blocks
encountered along exactly the traversal `iterLoop` performs in SCAN mode
(which depends only on the log contents and the counters, never on the
threaded state). -/
def scanCommitCount (env : REnv) (jsb : JbdSbView) :
    Nat → Nat → Nat → Nat → Option Nat
  | 0, _, _, _ => none
  | fuel + 1, start_block, this_trans_id, this_block =>
    match env.log this_block with
    | .error _ => some 0
    | .ok b =>
      if b.magicOk = false then some 0
      else if b.seq ≠ this_trans_id then some 0
      else if b.btype = JBD_DESCRIPTOR_BLOCK then
        let blk := wrapBlk jsb (jbd_debug_descriptor_block b.tags this_block + 1)
        if blk = start_block then some 0
        else scanCommitCount env jsb fuel start_block this_trans_id blk
      else if b.btype = JBD_COMMIT_BLOCK then
        let blk := wrapBlk jsb (this_block + 1)
        if blk = start_block then some 1
        else (scanCommitCount env jsb fuel start_block (this_trans_id + 1) blk).map
          (fun c => 1 + c)
      else if b.btype = JBD_REVOKE_BLOCK then
        let blk := wrapBlk jsb (this_block + 1)
        if blk = start_block then some 0
        else scanCommitCount env jsb fuel start_block this_trans_id blk
      else some 0

/-- The LBAs of the given `jbd_buf` ids as recorded in a state. -/
def lbasOf (st : JSt) (ids : List Nat) : List Nat :=
  ids.filterMap (fun id => (alget st.jbufs id).map JbdBufM.lba)

/-- Feature set with every incompatible feature clear. -/
def featNone : JbdFeat :=
  { incompat_64bit := false, incompat_csum_v2 := false, incompat_csum_v3 := false }

/-- A zeroed v1 tag memory with a zeroed UUID area. -/
def tagMemZero1 : TagMem :=
  .v1 { blocknr := 0, checksum := 0, flags := 0, blocknr_high := 0 } (List.replicate 16 0)

/-- Feature set with only CSUM_V3 set. -/
def featCsum3 : JbdFeat :=
  { incompat_64bit := false, incompat_csum_v2 := false, incompat_csum_v3 := true }

/-- A v3 tag with the ESCAPE flag and nonzero stored block halves. -/
def c6tag3 : JbdBlockTag3 :=
  { blocknr := 9, flags := JBD_FLAG_ESCAPE, blocknr_high := 4, checksum := 0 }

/-- A v1 tag with the ESCAPE flag and nonzero stored block halves. -/
def c6tag1 : JbdBlockTag :=
  { blocknr := 9, checksum := 0, flags := JBD_FLAG_ESCAPE, blocknr_high := 4 }

/-- A zeroed `tag_info` accumulator. -/
def tagInfo0 : TagInfo :=
  { tag_bytes := 0, block := 0, uuid_exist := false, uuid := [], last_tag := false }

/-- A tag whose block number does not fit in 32 bits. -/
def c1tagBig : TagInfo :=
  { tag_bytes := 0, block := 2 ^ 32, uuid_exist := false, uuid := [], last_tag := false }

/-- An ordinary tag with UUID. -/
def c1tagOk : TagInfo :=
  { tag_bytes := 0, block := 5, uuid_exist := true, uuid := List.range 16, last_tag := true }

/-- An all-invalid journal view (every read yields an I/O error). -/
def rEnvErr : REnv :=
  { log := fun _ => .error eIOerr, diskGetRc := fun _ => eOK, sbWriteRc := eOK }

/-- A clean-log replay state (journal superblock `start = 0`). -/
def rStClean : RSt :=
  { jsb := { start := 0, sequence := 7, maxlen := 16, first := 1 },
    fsSb := { state := 0, mount_count := 0, features_incompatible := 0, body := 0 },
    jbdDirty := false, disk := [], reads := [] }

/-- A journal data block with recognizable content. -/
def jdbData : JDiskBlock :=
  { magicOk := true, seq := 0, btype := 0, tags := [], revoked := [], data := 77,
    asSb := { state := 0, mount_count := 0, features_incompatible := 0, body := 0 } }

/-- A journal whose every block reads as `jdbData`. -/
def rEnvData : REnv :=
  { log := fun _ => .ok jdbData, diskGetRc := fun _ => eOK, sbWriteRc := eOK }

/-- A recover-info with one revoke entry: block 100 revoked at trans 8. -/
def c2info : RecoverInfo :=
  { start_trans_id := 0, last_trans_id := 0, this_trans_id := 9, revoke_root := [(100, 8)] }

/-- A journal block with valid magic and sequence 99. -/
def jdbSeq99 : JDiskBlock :=
  { magicOk := true, seq := 99, btype := JBD_COMMIT_BLOCK, tags := [], revoked := [],
    data := 0,
    asSb := { state := 0, mount_count := 0, features_incompatible := 0, body := 0 } }

/-- A journal whose every block reads as `jdbSeq99`. -/
def rEnvSeq99 : REnv :=
  { log := fun _ => .ok jdbSeq99, diskGetRc := fun _ => eOK, sbWriteRc := eOK }

/-- A replay state whose log starts at block 2, expecting sequence 7. -/
def rStAt2 : RSt :=
  { jsb := { start := 2, sequence := 7, maxlen := 16, first := 1 },
    fsSb := { state := 0, mount_count := 0, features_incompatible := 0, body := 0 },
    jbdDirty := false, disk := [], reads := [] }

/-- A one-transaction log: block 1 holds a commit block of sequence 7,
everything else reads as garbage (invalid magic). -/
def c7env : REnv :=
  { log := fun b =>
      if b = 1 then
        .ok { magicOk := true, seq := 7, btype := JBD_COMMIT_BLOCK, tags := [],
              revoked := [], data := 0,
              asSb := { state := 0, mount_count := 0, features_incompatible := 0, body := 0 } }
      else
        .ok { magicOk := false, seq := 0, btype := 0, tags := [], revoked := [], data := 0,
              asSb := { state := 0, mount_count := 0, features_incompatible := 0, body := 0 } },
    diskGetRc := fun _ => eOK, sbWriteRc := eOK }

/-- Replay state matching `c7env`: log starts at block 1, sequence 7. -/
def c7st : RSt :=
  { jsb := { start := 1, sequence := 7, maxlen := 16, first := 1 },
    fsSb := { state := 0, mount_count := 0, features_incompatible := 0, body := 0 },
    jbdDirty := false, disk := [], reads := [] }

/-- An empty, fresh transaction record. -/
def jEmptyTrans : TransM :=
  { trans_id := 0, start_iblock := 0, alloc_blocks := 0, data_cnt := 0,
    written_cnt := 0, buf_list := [], revoke_list := [], error := eOK }

/-- A freshly started journal. -/
def jJournal0 : JournalM :=
  { first := 1, start := 1, last := 1, trans_id := 1, alloc_trans_id := 1,
    block_size := 1024, trans_queue := [], cp_queue := [] }

/-- A live journal superblock view with no features. -/
def jJsb0 : JbdSbLive :=
  { start := 1, sequence := 1, maxlen := 16, first := 1,
    uuid := List.replicate 16 0, feat := featNone, dirtySb := false }

/-- A live state where buffer 5 is dirty but carries no journal callback. -/
def c8stDirty : JSt :=
  { journal := jJournal0, jsb := jJsb0, transes := [(1, jEmptyTrans)], jbufs := [],
    recs := [],
    cache := [(5, { dirty := true, flushFlag := false, end_write := none,
                    refcnt := 1, data := 0 })],
    nextId := 10, ioOracle := [], allocOracle := [], bmap := fun i => 1000 + i }

/-- The same state with buffer 5 clean. -/
def c8stClean : JSt :=
  { c8stDirty with
    cache := [(5, { dirty := false, flushFlag := false, end_write := none,
                    refcnt := 1, data := 0 })] }

/-- A one-buffer transaction about to be committed. -/
def c4tr : TransM :=
  { jEmptyTrans with trans_id := 1, data_cnt := 1, buf_list := [7] }

/-- A live state whose single transaction holds the dirty buffer of device
block 50 (with its end-of-write callback installed), and whose next device
operation — the descriptor-block `bmap` inside `jbd_journal_prepare` — fails
with an I/O error. -/
def c4st : JSt :=
  { journal := jJournal0, jsb := jJsb0,
    transes := [(1, c4tr)],
    jbufs := [(7, { transTok := 1, lba := 50 })],
    recs := [(50, { lba := 50, buf := some 50, transTok := 1 })],
    cache := [(50, { dirty := true, flushFlag := false, end_write := some 7,
                     refcnt := 2, data := 3 })],
    nextId := 10, ioOracle := [eIOerr], allocOracle := [],
    bmap := fun i => 1000 + i }

/-- The state returned by the failing commit on `c4st`. -/
def c4st2 : JSt := ((jbd_journal_commit_trans 9 c4st 1).getD (0, c4st)).2

/-- The mount environment of the C10 failing input: the journal inode
reference is acquired, then reading the journal superblock fails with an
I/O error. -/
def c10env : MountEnv :=
  { journal_inode_number := 8, getInodeRefRc := eOK, sbReadRc := eIOerr,
    sbRead := { magic := 0, blocktype := 0 } }

end LwJbd

namespace LwJbd

/-! ## Helper lemmas -/

theorem revokeLookup_update_self (l : List (Nat × Nat)) (blk tid : Nat) :
    revokeLookup (revokeUpdate l blk tid) blk = some tid := by
  induction l with
  | nil => simp [revokeUpdate, revokeLookup]
  | cons p rest ih =>
    obtain ⟨b, t⟩ := p
    by_cases h : b = blk <;> simp [revokeUpdate, revokeLookup, h, ih]

theorem revokeLookup_update_other (l : List (Nat × Nat)) (blk tid b2 : Nat)
    (h : b2 ≠ blk) :
    revokeLookup (revokeUpdate l blk tid) b2 = revokeLookup l b2 := by
  induction l with
  | nil =>
    simp only [revokeUpdate, revokeLookup]
    rw [if_neg (fun hh => h hh.symm)]
  | cons p rest ih =>
    obtain ⟨b, t⟩ := p
    simp only [revokeUpdate]
    by_cases hb : b = blk
    · subst hb
      simp only [if_pos rfl, revokeLookup]
      rw [if_neg (fun hh => h hh.symm), if_neg (fun hh => h hh.symm)]
    · simp only [if_neg hb, revokeLookup]
      by_cases hb2 : b = b2
      · simp [hb2]
      · simp [hb2, ih]

/-- Decompose a 64-bit value stored as low/high 32-bit halves. -/
theorem lor_low_high (b : Nat) (h : b < 2 ^ 64) :
    b % 2 ^ 32 ||| ((b >>> 32) % 2 ^ 32) <<< 32 = b := by
  have hdiv : b >>> 32 = b / 2 ^ 32 := Nat.shiftRight_eq_div_pow b 32
  have hlt : b / 2 ^ 32 < 2 ^ 32 := by
    apply Nat.div_lt_of_lt_mul
    calc b < 2 ^ 64 := h
    _ = 2 ^ 32 * 2 ^ 32 := by norm_num
  rw [hdiv, Nat.mod_eq_of_lt hlt]
  apply Nat.eq_of_testBit_eq
  intro i
  simp only [Nat.testBit_lor, Nat.testBit_shiftLeft, Nat.testBit_mod_two_pow]
  by_cases hi : i < 32
  · have : ¬ 32 ≤ i := by omega
    simp [hi, this]
  · have h32 : 32 ≤ i := by omega
    have : b / 2 ^ 32 = b >>> 32 := hdiv.symm
    rw [this, Nat.testBit_shiftRight]
    have : 32 + (i - 32) = i := by omega
    simp [hi, h32, this]

/-- Literal bitwise evaluations used to reduce flag tests. -/
theorem land_two_two : (2 &&& 2 : Nat) = 2 := rfl

theorem land_two_eight : (2 &&& 8 : Nat) = 0 := rfl

theorem land_ten_two : (10 &&& 2 : Nat) = 2 := rfl

theorem land_ten_eight : (10 &&& 8 : Nat) = 8 := rfl

theorem land_eight_two : (8 &&& 2 : Nat) = 0 := rfl

theorem land_eight_eight : (8 &&& 8 : Nat) = 8 := rfl

theorem land_zero_two : (0 &&& 2 : Nat) = 0 := rfl

theorem land_zero_eight : (0 &&& 8 : Nat) = 0 := rfl

theorem lor_two_eight : (2 ||| 8 : Nat) = 10 := rfl

theorem lor_zero_eight : (0 ||| 8 : Nat) = 8 := rfl

theorem lor_zero_two : (0 ||| 2 : Nat) = 2 := rfl

theorem alget_alset_self {α : Type} (l : List (Nat × α)) (k : Nat) (v : α) :
    alget (alset l k v) k = some v := by
  induction l with
  | nil => simp [alset, alget]
  | cons p rest ih =>
    obtain ⟨k2, w⟩ := p
    by_cases hk : k2 = k <;> simp [alset, alget, hk, ih]

theorem cacheGet_cacheMod_self (st : JSt) (lba : Nat) (f : ExtBuf → ExtBuf) :
    cacheGet (cacheMod st lba f) lba = f (cacheGet st lba) := by
  simp [cacheGet, cacheMod, alget_alset_self]

theorem alget_alset_ne {α : Type} (l : List (Nat × α)) (k k2 : Nat) (v : α)
    (h : k2 ≠ k) : alget (alset l k v) k2 = alget l k2 := by
  induction l with
  | nil =>
    simp only [alset, alget]
    rw [if_neg (fun hh => h hh.symm)]
  | cons p rest ih =>
    obtain ⟨k3, w⟩ := p
    by_cases hk : k3 = k
    · subst hk
      simp only [alset, if_pos rfl, alget]
      rw [if_neg (fun hh => h hh.symm), if_neg (fun hh => h hh.symm)]
    · simp only [alset, if_neg hk, alget]
      by_cases hk2 : k3 = k2 <;> simp [hk2, ih]

theorem alerase_cons_self {α : Type} (k : Nat) (w : α) (rest : List (Nat × α)) :
    alerase ((k, w) :: rest) k = rest := by
  simp [alerase]

theorem alerase_cons_ne {α : Type} (k k3 : Nat) (w : α) (rest : List (Nat × α))
    (h : k3 ≠ k) : alerase ((k3, w) :: rest) k = (k3, w) :: alerase rest k := by
  simp [alerase, h]

theorem alget_alerase_ne {α : Type} (l : List (Nat × α)) (k k2 : Nat)
    (h : k2 ≠ k) : alget (alerase l k) k2 = alget l k2 := by
  induction l with
  | nil => simp [alerase]
  | cons p rest ih =>
    obtain ⟨k3, w⟩ := p
    by_cases hk : k3 = k
    · subst hk
      rw [alerase_cons_self]
      have hne : k3 ≠ k2 := fun hh => h hh.symm
      simp [alget, hne]
    · rw [alerase_cons_ne _ _ _ _ hk]
      by_cases hk2 : k3 = k2 <;> simp [alget, hk2, ih]

theorem alget_alerase_self {α : Type} (l : List (Nat × α)) (k : Nat)
    (h : (l.map Prod.fst).Nodup) : alget (alerase l k) k = none := by
  induction l with
  | nil => simp [alerase, alget]
  | cons p rest ih =>
    obtain ⟨k3, w⟩ := p
    simp only [List.map_cons, List.nodup_cons] at h
    by_cases hk : k3 = k
    · subst hk
      rw [alerase_cons_self]
      clear ih
      induction rest with
      | nil => simp [alget]
      | cons q rest2 ih2 =>
        obtain ⟨k4, w2⟩ := q
        simp only [List.map_cons, List.mem_cons, List.nodup_cons] at h
        have hk4 : k4 ≠ k3 := fun hh => h.1 (Or.inl hh.symm)
        simp only [alget, if_neg hk4]
        exact ih2 ⟨fun hm => h.1 (Or.inr hm), h.2.2⟩
    · rw [alerase_cons_ne _ _ _ _ hk]
      simp only [alget, if_neg hk]
      exact ih h.2

theorem alget_alerase_mono {α : Type} (l : List (Nat × α)) (k k2 : Nat) (v : α)
    (h : (l.map Prod.fst).Nodup)
    (hg : alget (alerase l k) k2 = some v) : alget l k2 = some v := by
  by_cases hk : k2 = k
  · subst hk
    rw [alget_alerase_self l k2 h] at hg
    cases hg
  · rw [alget_alerase_ne l k k2 hk] at hg
    exact hg

theorem keys_alset_eq {α : Type} (l : List (Nat × α)) (k : Nat) (v : α) :
    (alset l k v).map Prod.fst =
      if k ∈ l.map Prod.fst then l.map Prod.fst else l.map Prod.fst ++ [k] := by
  induction l with
  | nil => simp [alset]
  | cons p rest ih =>
    obtain ⟨k3, w⟩ := p
    by_cases hk : k3 = k
    · subst hk
      simp [alset]
    · simp only [alset, if_neg hk, List.map_cons, ih]
      by_cases hm : k ∈ rest.map Prod.fst
      · rw [if_pos hm, if_pos (by simp [hm])]
      · have hne : ¬ k ∈ (k3 :: rest.map Prod.fst) := by
          simp only [List.mem_cons]
          push_neg
          exact ⟨fun hh => hk hh.symm, hm⟩
        rw [if_neg hm, if_neg hne]
        simp

theorem keys_alset {α : Type} (l : List (Nat × α)) (k : Nat) (v : α)
    (h : (l.map Prod.fst).Nodup) : ((alset l k v).map Prod.fst).Nodup := by
  rw [keys_alset_eq]
  by_cases hm : k ∈ l.map Prod.fst
  · rw [if_pos hm]
    exact h
  · rw [if_neg hm]
    simp [List.nodup_append, h, hm]

theorem keys_alerase_sublist {α : Type} (l : List (Nat × α)) (k : Nat) :
    ((alerase l k).map Prod.fst).Sublist (l.map Prod.fst) := by
  induction l with
  | nil => simp [alerase]
  | cons p rest ih =>
    obtain ⟨k3, w⟩ := p
    by_cases hk : k3 = k
    · subst hk
      rw [alerase_cons_self]
      simp only [List.map_cons]
      exact List.sublist_cons_of_sublist _ (List.Sublist.refl _)
    · rw [alerase_cons_ne _ _ _ _ hk]
      simp only [List.map_cons]
      exact List.Sublist.cons₂ _ ih

theorem keys_alerase {α : Type} (l : List (Nat × α)) (k : Nat)
    (h : (l.map Prod.fst).Nodup) : ((alerase l k).map Prod.fst).Nodup :=
  h.sublist (keys_alerase_sublist l k)

theorem alset_alset {α : Type} (l : List (Nat × α)) (k : Nat) (v v2 : α) :
    alset (alset l k v) k v2 = alset l k v2 := by
  induction l with
  | nil => simp [alset]
  | cons p rest ih =>
    obtain ⟨k3, w⟩ := p
    by_cases hk : k3 = k <;> simp [alset, hk, ih]

theorem cacheGet_cacheMod_ne (st : JSt) (lba lba2 : Nat) (f : ExtBuf → ExtBuf)
    (h : lba2 ≠ lba) : cacheGet (cacheMod st lba f) lba2 = cacheGet st lba2 := by
  simp [cacheGet, cacheMod, alget_alset_ne _ _ _ _ h]

theorem freeTransBufAbort_none (st : JSt) (id : Nat)
    (h : alget st.jbufs id = none) : freeTransBufAbort st id = st := by
  unfold freeTransBufAbort
  rw [h]

/-- Releasing a reference on a clean buffer never triggers the write-through
path of `ext4_block_set`: it only decrements the reference count. -/
theorem ext4_block_set_clean (st : JSt) (lba : Nat)
    (h : (cacheGet st lba).dirty = false) :
    ext4_block_set st lba =
      (eOK, cacheMod st lba (fun bb => { bb with refcnt := bb.refcnt - 1 })) := by
  unfold ext4_block_set ext4_block_flush_buf
  dsimp only
  split
  · rw [if_pos]
    rw [cacheGet_cacheMod_self]
    exact h
  · rfl

/-- Explicit form of one abort-mode buffer release: the three cache-field
updates compose into one cache write (the write-through path of
`ext4_block_set` is a no-op because the dirty bit was just cleared), the
owned block record is removed, and the `jbd_buf` is freed. -/
theorem freeTransBufAbort_eq (st : JSt) (id : Nat) (jb : JbdBufM)
    (h : alget st.jbufs id = some jb) :
    freeTransBufAbort st id =
      { st with
        cache := alset st.cache jb.lba
          { cacheGet st jb.lba with
            end_write := none, dirty := false,
            refcnt := (cacheGet st jb.lba).refcnt - 1 },
        recs := (match alget st.recs jb.lba with
          | some r =>
            if r.transTok = jb.transTok then alerase st.recs jb.lba else st.recs
          | none => st.recs),
        jbufs := alerase st.jbufs id } := by
  unfold freeTransBufAbort
  rw [h]
  dsimp only
  rw [ext4_block_set_clean _ _ (by rw [cacheGet_cacheMod_self])]
  unfold jbd_trans_remove_block_rec
  simp only [cacheMod, cacheGet, alget_alset_self, Option.getD_some, alset_alset]
  rcases alget st.recs jb.lba with _ | r
  · rfl
  · dsimp only
    split_ifs <;> rfl

/-- One abort-mode buffer release never touches the journal fields or the
transaction table. -/
theorem freeTransBufAbort_frame (st : JSt) (id : Nat) :
    (freeTransBufAbort st id).journal = st.journal ∧
    (freeTransBufAbort st id).transes = st.transes := by
  rcases halget : alget st.jbufs id with _ | jb
  · rw [freeTransBufAbort_none st id halget]
    exact ⟨rfl, rfl⟩
  · rw [freeTransBufAbort_eq st id jb halget]
    exact ⟨rfl, rfl⟩

/-- The abort-mode buffer fold never touches the journal fields or the
transaction table. -/
theorem foldAbort_frame_journal (l : List Nat) :
    ∀ st : JSt,
      (l.foldl freeTransBufAbort st).journal = st.journal ∧
      (l.foldl freeTransBufAbort st).transes = st.transes := by
  induction l with
  | nil => intro st; exact ⟨rfl, rfl⟩
  | cons a rest ih =>
    intro st
    rw [List.foldl_cons]
    obtain ⟨hj, ht⟩ := ih (freeTransBufAbort st a)
    obtain ⟨hj2, ht2⟩ := freeTransBufAbort_frame st a
    exact ⟨hj.trans hj2, ht.trans ht2⟩

/-- `jbd_journal_free_trans` in abort mode never changes the journal
fields. -/
theorem free_trans_abort_journal (st : JSt) (tok : Nat) :
    (jbd_journal_free_trans st tok true).journal = st.journal := by
  unfold jbd_journal_free_trans
  rcases getTrans st tok with _ | tr
  · rfl
  · exact (foldAbort_frame_journal tr.buf_list st).1

/-- The `Finish` label on a failing path leaves the journal fields as on
entry except that `last` is rewound to the saved value. -/
theorem commitFinishFail_journal (st : JSt) (tok last : Nat) :
    (commitFinishFail st tok last).journal = { st.journal with last := last } := by
  unfold commitFinishFail
  rw [free_trans_abort_journal]

/-- After an abort-mode free the transaction is gone from the transaction
table (the table's keys being duplicate-free, as C pointers guarantee). -/
theorem free_trans_abort_getTrans (st : JSt) (tok : Nat) (tr : TransM)
    (hn : (st.transes.map Prod.fst).Nodup)
    (hg : getTrans st tok = some tr) :
    getTrans (jbd_journal_free_trans st tok true) tok = none := by
  unfold jbd_journal_free_trans
  rw [hg]
  show alget (alerase (tr.buf_list.foldl freeTransBufAbort st).transes tok) tok = none
  rw [(foldAbort_frame_journal tr.buf_list st).2]
  exact alget_alerase_self st.transes tok hn

/-- `lbasOf` only depends on the `jbd_buf` entries of the listed ids. -/
theorem lbasOf_congr (ids : List Nat) :
    ∀ st st2 : JSt, (∀ b ∈ ids, alget st2.jbufs b = alget st.jbufs b) →
      lbasOf st2 ids = lbasOf st ids := by
  induction ids with
  | nil => intro st st2 h; rfl
  | cons a rest ih =>
    intro st st2 h
    show (lbasOf st2 (a :: rest)) = lbasOf st (a :: rest)
    unfold lbasOf
    rw [List.filterMap_cons, List.filterMap_cons]
    rw [h a (List.mem_cons_self a rest)]
    have hrest : rest.filterMap (fun id => (alget st2.jbufs id).map JbdBufM.lba) =
        rest.filterMap (fun id => (alget st.jbufs id).map JbdBufM.lba) := by
      have := ih st st2 (fun b hb => h b (List.mem_cons_of_mem a hb))
      simpa [lbasOf] using this
    rw [hrest]
/-- The abort-mode buffer fold does not touch a cache line, a block record
or a `jbd_buf` that does not belong to any of the listed buffers. -/
theorem foldAbort_frame (l : List Nat) :
    ∀ st : JSt, ∀ lba0 id0 : Nat,
      (st.jbufs.map Prod.fst).Nodup →
      (∀ b ∈ l, ∀ jb2, alget st.jbufs b = some jb2 → jb2.lba ≠ lba0) →
      id0 ∉ l →
      cacheGet (l.foldl freeTransBufAbort st) lba0 = cacheGet st lba0 ∧
      alget (l.foldl freeTransBufAbort st).jbufs id0 = alget st.jbufs id0 ∧
      alget (l.foldl freeTransBufAbort st).recs lba0 = alget st.recs lba0 := by
  induction l with
  | nil => intro st lba0 id0 _ _ _; exact ⟨rfl, rfl, rfl⟩
  | cons a rest ih =>
    intro st lba0 id0 hjn hlba hid
    rw [List.foldl_cons]
    have hida : id0 ≠ a := fun he => hid (he ▸ List.mem_cons_self a rest)
    have hidr : id0 ∉ rest := fun hm => hid (List.mem_cons_of_mem a hm)
    rcases halget : alget st.jbufs a with _ | jb
    · rw [freeTransBufAbort_none st a halget]
      exact ih st lba0 id0 hjn (fun b hb => hlba b (List.mem_cons_of_mem a hb)) hidr
    · rw [freeTransBufAbort_eq st a jb halget]
      set st2 : JSt :=
        { st with
          cache := alset st.cache jb.lba
            { cacheGet st jb.lba with
              end_write := none, dirty := false,
              refcnt := (cacheGet st jb.lba).refcnt - 1 },
          recs := (match alget st.recs jb.lba with
            | some r =>
              if r.transTok = jb.transTok then alerase st.recs jb.lba else st.recs
            | none => st.recs),
          jbufs := alerase st.jbufs a } with hst2
      have hlba0 : jb.lba ≠ lba0 := hlba a (List.mem_cons_self a rest) jb halget
      have hjn2 : (st2.jbufs.map Prod.fst).Nodup := keys_alerase st.jbufs a hjn
      have hjb2 : ∀ b ∈ rest, ∀ jb2, alget st2.jbufs b = some jb2 → jb2.lba ≠ lba0 := by
        intro b hb jb2 hj
        by_cases hba : b = a
        · subst hba
          have hz : alget (alerase st.jbufs b) b = none := alget_alerase_self st.jbufs b hjn
          exact absurd (hz ▸ hj) (by simp)
        · have hj2 : alget st.jbufs b = some jb2 := by
            rw [← alget_alerase_ne st.jbufs a b hba]
            exact hj
          exact hlba b (List.mem_cons_of_mem a hb) jb2 hj2
      have hmain := ih st2 lba0 id0 hjn2 hjb2 hidr
      refine ⟨?_, ?_, ?_⟩
      · rw [hmain.1]
        show cacheGet st2 lba0 = cacheGet st lba0
        simp only [hst2, cacheGet, alget_alset_ne st.cache jb.lba lba0 _ (fun he => hlba0 he.symm)]
      · rw [hmain.2.1]
        show alget (alerase st.jbufs a) id0 = alget st.jbufs id0
        exact alget_alerase_ne st.jbufs a id0 hida
      · rw [hmain.2.2]
        show alget st2.recs lba0 = alget st.recs lba0
        rcases hr : alget st.recs jb.lba with _ | r
        · simp only [hst2, hr]
        · simp only [hst2, hr]
          split_ifs with hown
          · exact alget_alerase_ne st.recs jb.lba lba0 (fun he => hlba0 he.symm)
          · rfl
/-- Effects of the abort-mode buffer fold on each listed buffer (under the
duplicate-freedom of the heaps and of the transaction's buffer/LBA lists,
which C pointer identity guarantees): the end-of-write callback and its
argument are cleared, the dirty bit is cleared, the cache reference is
released, the owned block record is removed, and the `jbd_buf` is freed. -/
theorem foldAbort_effects (l : List Nat) :
    ∀ st : JSt,
      l.Nodup →
      (st.jbufs.map Prod.fst).Nodup →
      (st.recs.map Prod.fst).Nodup →
      (lbasOf st l).Nodup →
      ∀ id ∈ l, ∀ jb, alget st.jbufs id = some jb →
        cacheGet (l.foldl freeTransBufAbort st) jb.lba =
          { cacheGet st jb.lba with
            end_write := none, dirty := false,
            refcnt := (cacheGet st jb.lba).refcnt - 1 } ∧
        alget (l.foldl freeTransBufAbort st).jbufs id = none ∧
        alget (l.foldl freeTransBufAbort st).recs jb.lba =
          (match alget st.recs jb.lba with
            | some r => if r.transTok = jb.transTok then none else some r
            | none => none) := by
  induction l with
  | nil => intro st _ _ _ _ id hid; exact absurd hid (List.not_mem_nil id)
  | cons a rest ih =>
    intro st hln hjn hrn hlbn id hid jb halget
    rw [List.foldl_cons]
    have hanr : a ∉ rest := (List.nodup_cons.mp hln).1
    have hrnodup : rest.Nodup := (List.nodup_cons.mp hln).2
    rcases List.mem_cons.mp hid with hida | hidr
    · subst hida
      rw [freeTransBufAbort_eq st id jb halget]
      set st2 : JSt :=
        { st with
          cache := alset st.cache jb.lba
            { cacheGet st jb.lba with
              end_write := none, dirty := false,
              refcnt := (cacheGet st jb.lba).refcnt - 1 },
          recs := (match alget st.recs jb.lba with
            | some r =>
              if r.transTok = jb.transTok then alerase st.recs jb.lba else st.recs
            | none => st.recs),
          jbufs := alerase st.jbufs id } with hst2
      have hjn2 : (st2.jbufs.map Prod.fst).Nodup := keys_alerase st.jbufs id hjn
      have hlbrest : jb.lba ∉ lbasOf st rest := by
        have : lbasOf st (id :: rest) = jb.lba :: lbasOf st rest := by
          unfold lbasOf
          rw [List.filterMap_cons, halget]
          rfl
        rw [this] at hlbn
        exact (List.nodup_cons.mp hlbn).1
      have hfr := foldAbort_frame rest st2 jb.lba id hjn2 ?hyp1 hanr
      case hyp1 =>
        intro b hb jb2 hj
        have hba : b ≠ id := fun he => hanr (he ▸ hb)
        have hj2 : alget st.jbufs b = some jb2 := by
          have : alget st2.jbufs b = alget st.jbufs b :=
            alget_alerase_ne st.jbufs id b hba
          rw [← this]
          exact hj
        intro he
        apply hlbrest
        rw [← he]
        exact List.mem_filterMap.mpr ⟨b, hb, by rw [hj2]; rfl⟩
      refine ⟨?_, ?_, ?_⟩
      · rw [hfr.1]
        show cacheGet st2 jb.lba = _
        simp only [hst2, cacheGet, alget_alset_self, Option.getD_some]
      · rw [hfr.2.1]
        show alget (alerase st.jbufs id) id = none
        exact alget_alerase_self st.jbufs id hjn
      · rw [hfr.2.2]
        show alget st2.recs jb.lba = _
        rcases hr : alget st.recs jb.lba with _ | r
        · simp only [hst2, hr]
        · simp only [hst2, hr]
          split_ifs with hown
          · exact alget_alerase_self st.recs jb.lba hrn
          · exact hr
    · have hidna : id ≠ a := fun he => hanr (he ▸ hidr)
      rcases halgA : alget st.jbufs a with _ | jbA
      · rw [freeTransBufAbort_none st a halgA]
        have hlbn2 : (lbasOf st rest).Nodup := by
          have : lbasOf st (a :: rest) = lbasOf st rest := by
            unfold lbasOf
            rw [List.filterMap_cons, halgA]
            rfl
          rw [this] at hlbn
          exact hlbn
        exact ih st hrnodup hjn hrn hlbn2 id hidr jb halget
      · rw [freeTransBufAbort_eq st a jbA halgA]
        set st2 : JSt :=
          { st with
            cache := alset st.cache jbA.lba
              { cacheGet st jbA.lba with
                end_write := none, dirty := false,
                refcnt := (cacheGet st jbA.lba).refcnt - 1 },
            recs := (match alget st.recs jbA.lba with
              | some r =>
                if r.transTok = jbA.transTok then alerase st.recs jbA.lba else st.recs
              | none => st.recs),
            jbufs := alerase st.jbufs a } with hst2
        have hjbufs2 : ∀ b ∈ rest, alget st2.jbufs b = alget st.jbufs b := by
          intro b hb
          have hba : b ≠ a := fun he => hanr (he ▸ hb)
          exact alget_alerase_ne st.jbufs a b hba
        have hlbcons : lbasOf st (a :: rest) = jbA.lba :: lbasOf st rest := by
          unfold lbasOf
          rw [List.filterMap_cons, halgA]
          rfl
        have hlbArest : jbA.lba ∉ lbasOf st rest := by
          rw [hlbcons] at hlbn
          exact (List.nodup_cons.mp hlbn).1
        have hlbneq : jbA.lba ≠ jb.lba := by
          intro he
          apply hlbArest
          rw [he]
          exact List.mem_filterMap.mpr ⟨id, hidr, by rw [halget]; rfl⟩
        have hjn2 : (st2.jbufs.map Prod.fst).Nodup := keys_alerase st.jbufs a hjn
        have hrn2 : (st2.recs.map Prod.fst).Nodup := by
          show ((match alget st.recs jbA.lba with
            | some r =>
              if r.transTok = jbA.transTok then alerase st.recs jbA.lba else st.recs
            | none => st.recs).map Prod.fst).Nodup
          rcases alget st.recs jbA.lba with _ | r
          · exact hrn
          · dsimp only
            split_ifs
            · exact keys_alerase st.recs jbA.lba hrn
            · exact hrn
        have hlbn2 : (lbasOf st2 rest).Nodup := by
          rw [lbasOf_congr rest st st2 hjbufs2]
          rw [hlbcons] at hlbn
          exact (List.nodup_cons.mp hlbn).2
        have halget2 : alget st2.jbufs id = some jb := by
          rw [hjbufs2 id hidr]
          exact halget
        have hmain := ih st2 hrnodup hjn2 hrn2 hlbn2 id hidr jb halget2
        have hcache2 : cacheGet st2 jb.lba = cacheGet st jb.lba := by
          simp only [hst2, cacheGet, alget_alset_ne st.cache jbA.lba jb.lba _
            (fun he => hlbneq he.symm)]
        have hrecs2 : alget st2.recs jb.lba = alget st.recs jb.lba := by
          show alget (match alget st.recs jbA.lba with
            | some r =>
              if r.transTok = jbA.transTok then alerase st.recs jbA.lba else st.recs
            | none => st.recs) jb.lba = alget st.recs jb.lba
          rcases alget st.recs jbA.lba with _ | r
          · rfl
          · dsimp only
            split_ifs
            · exact alget_alerase_ne st.recs jbA.lba jb.lba (fun he => hlbneq he.symm)
            · rfl
        refine ⟨?_, hmain.2.1, ?_⟩
        · rw [hmain.1, hcache2]
        · rw [hmain.2.2, hrecs2]
/-- Abort-mode `jbd_journal_free_trans` on a live transaction is the buffer
fold followed by erasing the transaction from the table. -/
theorem free_trans_abort_eq (st : JSt) (tok : Nat) (tr : TransM)
    (hg : getTrans st tok = some tr) :
    jbd_journal_free_trans st tok true =
      { tr.buf_list.foldl freeTransBufAbort st with
        transes := alerase (tr.buf_list.foldl freeTransBufAbort st).transes tok } := by
  unfold jbd_journal_free_trans
  rw [hg]
  rfl

/-- The `Finish` label on a failing path applies the abort-mode per-buffer
release to every buffer of the transaction. -/
theorem commitFinishFail_effects (s : JSt) (tok last : Nat) (tr : TransM)
    (hg : getTrans s tok = some tr)
    (hbn : tr.buf_list.Nodup) (hjn : (s.jbufs.map Prod.fst).Nodup)
    (hrn : (s.recs.map Prod.fst).Nodup) (hln : (lbasOf s tr.buf_list).Nodup) :
    ∀ id ∈ tr.buf_list, ∀ jb, alget s.jbufs id = some jb →
      cacheGet (commitFinishFail s tok last) jb.lba =
        { cacheGet s jb.lba with
          end_write := none, dirty := false,
          refcnt := (cacheGet s jb.lba).refcnt - 1 } ∧
      alget (commitFinishFail s tok last).jbufs id = none ∧
      alget (commitFinishFail s tok last).recs jb.lba =
        (match alget s.recs jb.lba with
          | some r => if r.transTok = jb.transTok then none else some r
          | none => none) := by
  intro id hid jb hjb
  have hE := foldAbort_effects tr.buf_list
    { s with journal := { s.journal with last := last } } hbn hjn hrn hln id hid jb hjb
  unfold commitFinishFail
  have hg2 : getTrans { s with journal := { s.journal with last := last } } tok =
      some tr := hg
  rw [free_trans_abort_eq _ tok tr hg2]
  exact hE

/-- Every failing exit of `jbd_journal_commit_trans` goes through the
`Finish` label with the `last` value saved on entry. -/
theorem commit_fail_shape (fuel : Nat) (st : JSt) (tok : Nat) (rc : Int) (st2 : JSt)
    (h : jbd_journal_commit_trans fuel st tok = some (rc, st2)) (hrc : rc ≠ eOK) :
    ∃ sFin, st2 = commitFinishFail sFin tok st.journal.last := by
  unfold jbd_journal_commit_trans at h
  rcases hg : getTrans st tok with _ | tr0 <;> rw [hg] at h <;> dsimp only at h
  · exact absurd h (by simp)
  set stA0 : JSt := setTrans st tok { tr0 with trans_id := st.journal.alloc_trans_id }
    with hstA0
  rcases hp : jbd_journal_prepare fuel stA0 tok with _ | p <;> rw [hp] at h <;>
    dsimp only at h
  · exact absurd h (by simp)
  obtain ⟨rc1, stA⟩ := p
  by_cases h1 : rc1 ≠ eOK
  · rw [if_pos h1] at h
    simp only [Option.some.injEq, Prod.mk.injEq] at h
    exact ⟨stA, h.2.symm⟩
  rw [if_neg h1] at h
  rcases hpr : jbd_journal_prepare_revoke fuel stA tok with _ | q <;> rw [hpr] at h <;>
    dsimp only at h
  · exact absurd h (by simp)
  obtain ⟨rc2, stB⟩ := q
  by_cases h2 : rc2 ≠ eOK
  · rw [if_pos h2] at h
    simp only [Option.some.injEq, Prod.mk.injEq] at h
    exact ⟨stB, h.2.symm⟩
  rw [if_neg h2] at h
  rcases hg2 : getTrans stB tok with _ | tr <;> rw [hg2] at h <;> dsimp only at h
  · exact absurd h (by simp)
  by_cases hemp : tr.buf_list = [] ∧ tr.revoke_list = []
  · rw [if_pos hemp] at h
    simp only [Option.some.injEq, Prod.mk.injEq] at h
    exact absurd h.1.symm hrc
  rw [if_neg hemp] at h
  rcases hw : jbd_trans_write_commit_block fuel stB tok with _ | w <;> rw [hw] at h <;>
    dsimp only at h
  · exact absurd h (by simp)
  obtain ⟨rc3, stC⟩ := w
  by_cases h3 : rc3 ≠ eOK
  · rw [if_pos h3] at h
    simp only [Option.some.injEq, Prod.mk.injEq] at h
    exact ⟨stC, h.2.symm⟩
  rw [if_neg h3] at h
  set stD : JSt := { stC with journal := { stC.journal with
    alloc_trans_id := stC.journal.alloc_trans_id + 1 } } with hstD
  rcases hg3 : getTrans stD tok with _ | tr2 <;> rw [hg3] at h <;> dsimp only at h
  · exact absurd h (by simp)
  split_ifs at h <;>
    (simp only [Option.some.injEq, Prod.mk.injEq] at h; exact absurd h.1.symm hrc)

/-- Block-type constants are pairwise distinct. -/
theorem jbt_commit_ne_descriptor : JBD_COMMIT_BLOCK ≠ JBD_DESCRIPTOR_BLOCK := by decide

theorem jbt_revoke_ne_descriptor : JBD_REVOKE_BLOCK ≠ JBD_DESCRIPTOR_BLOCK := by decide

theorem jbt_revoke_ne_commit : JBD_REVOKE_BLOCK ≠ JBD_COMMIT_BLOCK := by decide

/-- In SCAN mode the loop leaves `info` untouched, leaves the journal
superblock view untouched, and its final trans id exceeds the initial one by
exactly the number of commit blocks encountered (`scanCommitCount`). -/
theorem scan_lockstep (env : REnv) :
    ∀ (fuel start_block : Nat) (info : RecoverInfo) (tid blk : Nat) (st : RSt)
      (r : Int) (info2 : RecoverInfo) (tid2 blk2 : Nat) (st2 : RSt),
      iterLoop env JAction.scan fuel start_block info tid blk st =
        some (r, info2, tid2, blk2, st2) →
      info2 = info ∧ st2.jsb = st.jsb ∧
      ∃ c, scanCommitCount env st.jsb fuel start_block tid blk = some c ∧
        tid2 = tid + c := by
  intro fuel
  induction fuel with
  | zero =>
    intro start_block info tid blk st r info2 tid2 blk2 st2 h
    simp [iterLoop] at h
  | succ n ih =>
    intro start_block info tid blk st r info2 tid2 blk2 st2 h
    rcases hlog : env.log blk with rc | b
    · simp [iterLoop, jbt_commit_ne_descriptor, jbt_revoke_ne_descriptor, jbt_revoke_ne_commit, hlog] at h
      obtain ⟨h1, h2, h3, h4, h5⟩ := h
      subst h2
      subst h3
      refine ⟨rfl, by rw [← h5], 0, ?_, by omega⟩
      simp [scanCommitCount, jbt_commit_ne_descriptor, jbt_revoke_ne_descriptor, jbt_revoke_ne_commit, hlog]
    · by_cases hm : b.magicOk = false
      · simp [iterLoop, jbt_commit_ne_descriptor, jbt_revoke_ne_descriptor, jbt_revoke_ne_commit, hlog, hm] at h
        obtain ⟨h1, h2, h3, h4, h5⟩ := h
        subst h2
        subst h3
        refine ⟨rfl, by rw [← h5], 0, ?_, by omega⟩
        simp [scanCommitCount, jbt_commit_ne_descriptor, jbt_revoke_ne_descriptor, jbt_revoke_ne_commit, hlog, hm]
      · by_cases hseq : b.seq = tid
        · -- sequence matches: dispatch on the block type
          by_cases hb1 : b.btype = JBD_DESCRIPTOR_BLOCK
          · by_cases hw : wrapBlk st.jsb (jbd_debug_descriptor_block b.tags blk + 1) =
                start_block
            · simp [iterLoop, jbt_commit_ne_descriptor, jbt_revoke_ne_descriptor, jbt_revoke_ne_commit, hlog, hm, hseq, hb1, hw] at h
              obtain ⟨h1, h2, h3, h4, h5⟩ := h
              subst h2
              subst h3
              refine ⟨rfl, by rw [← h5], 0, ?_, by omega⟩
              simp [scanCommitCount, jbt_commit_ne_descriptor, jbt_revoke_ne_descriptor, jbt_revoke_ne_commit, hlog, hm, hseq, hb1, hw]
            · simp [iterLoop, jbt_commit_ne_descriptor, jbt_revoke_ne_descriptor, jbt_revoke_ne_commit, hlog, hm, hseq, hb1, hw] at h
              obtain ⟨hi, hjsb, c, hc, htid⟩ := ih _ _ _ _ _ _ _ _ _ _ h
              refine ⟨hi, hjsb, c, ?_, htid⟩
              simpa [scanCommitCount, jbt_commit_ne_descriptor, jbt_revoke_ne_descriptor, jbt_revoke_ne_commit, hlog, hm, hseq, hb1, hw] using hc
          · by_cases hb2 : b.btype = JBD_COMMIT_BLOCK
            · by_cases hw : wrapBlk st.jsb (blk + 1) = start_block
              · simp [iterLoop, jbt_commit_ne_descriptor, jbt_revoke_ne_descriptor, jbt_revoke_ne_commit, hlog, hm, hseq, hb1, hb2, hw] at h
                obtain ⟨h1, h2, h3, h4, h5⟩ := h
                subst h2
                subst h3
                refine ⟨rfl, by rw [← h5], 1, ?_, by omega⟩
                simp [scanCommitCount, jbt_commit_ne_descriptor, jbt_revoke_ne_descriptor, jbt_revoke_ne_commit, hlog, hm, hseq, hb1, hb2, hw]
              · simp [iterLoop, jbt_commit_ne_descriptor, jbt_revoke_ne_descriptor, jbt_revoke_ne_commit, hlog, hm, hseq, hb1, hb2, hw] at h
                obtain ⟨hi, hjsb, c, hc, htid⟩ := ih _ _ _ _ _ _ _ _ _ _ h
                refine ⟨hi, hjsb, 1 + c, ?_, by omega⟩
                simp [scanCommitCount, jbt_commit_ne_descriptor, jbt_revoke_ne_descriptor, jbt_revoke_ne_commit, hlog, hm, hseq, hb1, hb2, hw, hc]
            · by_cases hb5 : b.btype = JBD_REVOKE_BLOCK
              · by_cases hw : wrapBlk st.jsb (blk + 1) = start_block
                · simp [iterLoop, jbt_commit_ne_descriptor, jbt_revoke_ne_descriptor, jbt_revoke_ne_commit, hlog, hm, hseq, hb1, hb2, hb5, hw] at h
                  obtain ⟨h1, h2, h3, h4, h5⟩ := h
                  subst h2
                  subst h3
                  refine ⟨rfl, by rw [← h5], 0, ?_, by omega⟩
                  simp [scanCommitCount, jbt_commit_ne_descriptor, jbt_revoke_ne_descriptor, jbt_revoke_ne_commit, hlog, hm, hseq, hb1, hb2, hb5, hw]
                · simp [iterLoop, jbt_commit_ne_descriptor, jbt_revoke_ne_descriptor, jbt_revoke_ne_commit, hlog, hm, hseq, hb1, hb2, hb5, hw] at h
                  obtain ⟨hi, hjsb, c, hc, htid⟩ := ih _ _ _ _ _ _ _ _ _ _ h
                  refine ⟨hi, hjsb, c, ?_, htid⟩
                  simpa [scanCommitCount, jbt_commit_ne_descriptor, jbt_revoke_ne_descriptor, jbt_revoke_ne_commit, hlog, hm, hseq, hb1, hb2, hb5, hw] using hc
              · simp [iterLoop, jbt_commit_ne_descriptor, jbt_revoke_ne_descriptor, jbt_revoke_ne_commit, hlog, hm, hseq, hb1, hb2, hb5] at h
                obtain ⟨h1, h2, h3, h4, h5⟩ := h
                subst h2
                subst h3
                refine ⟨rfl, by rw [← h5], 0, ?_, by omega⟩
                simp [scanCommitCount, jbt_commit_ne_descriptor, jbt_revoke_ne_descriptor, jbt_revoke_ne_commit, hlog, hm, hseq, hb1, hb2, hb5]
        · simp [iterLoop, jbt_commit_ne_descriptor, jbt_revoke_ne_descriptor, jbt_revoke_ne_commit, hlog, hm, hseq] at h
          obtain ⟨h1, h2, h3, h4, h5⟩ := h
          subst h2
          subst h3
          refine ⟨rfl, by rw [← h5], 0, ?_, by omega⟩
          simp [scanCommitCount, jbt_commit_ne_descriptor, jbt_revoke_ne_descriptor, jbt_revoke_ne_commit, hlog, hm, hseq]

/-! ## Claim theorems -/

/-- C5: `jbd_tag_bytes` returns 16 when CSUM_V3 is set, and otherwise
12 plus 2 when CSUM_V2 is set, minus 4 when 64BIT is clear — one of
8, 10, 12 or 14 in the non-CSUM_V3 cases. -/
theorem c5_tag_bytes (f : JbdFeat) :
    jbd_tag_bytes f =
      (if f.incompat_csum_v3 then 16
       else 12 + (if f.incompat_csum_v2 then 2 else 0) -
         (if f.incompat_64bit then 0 else 4)) ∧
    jbd_tag_bytes f ∈ (if f.incompat_csum_v3 then [(16 : Int)] else [8, 10, 12, 14]) := by
  obtain ⟨b64, v2, v3⟩ := f
  cases b64 <;> cases v2 <;> cases v3 <;> constructor <;> decide

/-- C1 counterexample: with all features clear, a tag_info whose block number
is 2^32 writes successfully (EOK) and extracts successfully (EOK), but the
extracted block number is 0, not 2^32 — the 32-bit `blocknr` field truncates
the block number and without 64BIT the high half is neither stored nor read.
So `extract(write(tag_info)) = tag_info` fails as stated. -/
theorem c1_counterexample :
    (jbd_write_block_tag featNone tagMemZero1 100 c1tagBig).1 = eOK ∧
    (jbd_extract_block_tag featNone (jbd_write_block_tag featNone tagMemZero1 100 c1tagBig).2.1
      (jbd_tag_bytes featNone) 100 c1tagBig).1 = eOK ∧
    (jbd_extract_block_tag featNone (jbd_write_block_tag featNone tagMemZero1 100 c1tagBig).2.1
      (jbd_tag_bytes featNone) 100 c1tagBig).2.block = 0 ∧
    c1tagBig.block = 2 ^ 32 := by
  decide

set_option maxHeartbeats 1600000 in
/-- C1 (amended): for every feature combination, writing a tag_info with
`jbd_write_block_tag` into a buffer large enough for the tag (plus its UUID
when present) and extracting it again with the same features and the
matching `jbd_tag_bytes` returns EOK twice and recovers the block number,
the `uuid_exist` flag, the UUID bytes when present, and the last-tag flag —
provided the block number fits the stored width: below 2^64 always, and
below 2^32 when the 64BIT feature is clear. -/
theorem c1_roundtrip (f : JbdFeat) (mem : TagMem) (t : TagInfo) (remain : Int)
    (t0 : TagInfo)
    (hlayout : layoutMatches f mem = true)
    (hblock : t.block < 2 ^ 64)
    (hblock32 : f.incompat_64bit = false → t.block < 2 ^ 32)
    (hroom : jbd_tag_bytes f + (if t.uuid_exist then UUID_SIZE else 0) ≤ remain) :
    (jbd_write_block_tag f mem remain t).1 = eOK ∧
    (jbd_extract_block_tag f (jbd_write_block_tag f mem remain t).2.1
      (jbd_tag_bytes f) remain t0).1 = eOK ∧
    (jbd_extract_block_tag f (jbd_write_block_tag f mem remain t).2.1
      (jbd_tag_bytes f) remain t0).2.block = t.block ∧
    (jbd_extract_block_tag f (jbd_write_block_tag f mem remain t).2.1
      (jbd_tag_bytes f) remain t0).2.uuid_exist = t.uuid_exist ∧
    (t.uuid_exist = true →
      (jbd_extract_block_tag f (jbd_write_block_tag f mem remain t).2.1
        (jbd_tag_bytes f) remain t0).2.uuid = t.uuid) ∧
    (jbd_extract_block_tag f (jbd_write_block_tag f mem remain t).2.1
      (jbd_tag_bytes f) remain t0).2.last_tag = t.last_tag := by
  obtain ⟨b64, v2, v3⟩ := f
  obtain ⟨tb0, blk, ue, uu, lt⟩ := t
  replace hblock : blk < 2 ^ 64 := hblock
  rcases mem with ⟨tg, u⟩ | ⟨tg, u⟩ <;> cases v3 <;>
    simp only [layoutMatches, Bool.not_true, Bool.not_false] at hlayout <;>
    try (exact absurd hlayout (by decide))
  all_goals cases b64 <;> cases v2 <;> cases ue <;> cases lt <;>
    (try have h32 : blk < 2 ^ 32 := hblock32 rfl) <;>
    simp only [jbd_tag_bytes, UUID_SIZE, if_true, if_false] at hroom <;>
    norm_num at hroom <;>
    simp [jbd_write_block_tag, jbd_extract_block_tag, jbd_tag_bytes, UUID_SIZE,
      JBD_FLAG_SAME_UUID, JBD_FLAG_LAST_TAG, JBD_FLAG_ESCAPE, land_two_two,
      land_two_eight, land_ten_two, land_ten_eight, land_eight_two, land_eight_eight,
      land_zero_two, land_zero_eight, lor_two_eight, lor_zero_eight, lor_zero_two] <;>
    (try split_ifs) <;>
    (try simp [land_two_two, land_two_eight, land_ten_two, land_ten_eight, land_eight_two,
      land_eight_eight, land_zero_two, land_zero_eight, lor_two_eight, lor_zero_eight,
      lor_zero_two]) <;>
    (repeat' apply And.intro) <;>
    first
      | rfl
      | omega
      | exact lor_low_high blk hblock

/-- C1 witness: a concrete round trip (no features, UUID present, last tag). -/
theorem c1_roundtrip_witness :
    (layoutMatches featNone tagMemZero1 = true ∧
     c1tagOk.block < 2 ^ 64 ∧
     jbd_tag_bytes featNone + (if c1tagOk.uuid_exist then UUID_SIZE else 0) ≤ 100) ∧
    ((jbd_write_block_tag featNone tagMemZero1 100 c1tagOk).1 = eOK ∧
     (jbd_extract_block_tag featNone (jbd_write_block_tag featNone tagMemZero1 100 c1tagOk).2.1
       (jbd_tag_bytes featNone) 100 c1tagOk).1 = eOK ∧
     (jbd_extract_block_tag featNone (jbd_write_block_tag featNone tagMemZero1 100 c1tagOk).2.1
       (jbd_tag_bytes featNone) 100 c1tagOk).2.block = c1tagOk.block ∧
     (jbd_extract_block_tag featNone (jbd_write_block_tag featNone tagMemZero1 100 c1tagOk).2.1
       (jbd_tag_bytes featNone) 100 c1tagOk).2.uuid_exist = c1tagOk.uuid_exist ∧
     (c1tagOk.uuid_exist = true →
       (jbd_extract_block_tag featNone (jbd_write_block_tag featNone tagMemZero1 100 c1tagOk).2.1
         (jbd_tag_bytes featNone) 100 c1tagOk).2.uuid = c1tagOk.uuid) ∧
     (jbd_extract_block_tag featNone (jbd_write_block_tag featNone tagMemZero1 100 c1tagOk).2.1
       (jbd_tag_bytes featNone) 100 c1tagOk).2.last_tag = c1tagOk.last_tag) :=
  ⟨⟨by decide, by decide, by decide⟩,
   c1_roundtrip featNone tagMemZero1 c1tagOk 100 c1tagOk (by decide) (by decide)
     (fun _ => by decide) (by decide)⟩

/-- C2: (a) during RECOVER, the journaled copy for in-place block B in
replay transaction T is written back exactly when the revoke index has no
entry for B or T is at least the entry's trans id — so copies from
transactions before a revocation at R are suppressed and copies from
transactions at or after R are applied; (b) during REVOKE, inserting a block
that already has an entry overwrites the entry's trans id with the current
replay trans id (latest wins), leaving other entries untouched. -/
theorem c2_revoke_semantics :
    (∀ (env : REnv) (info : RecoverInfo) (T B : Nat) (st : RSt) (tb : Nat)
       (jblk : JDiskBlock),
      B ≠ 0 →
      env.log (tb + 1) = .ok jblk →
      env.diskGetRc B = eOK →
      (jbd_replay_block_tags env info T B st tb).2 = tb + 1 ∧
      ((revokeLookup info.revoke_root B = none ∨
        (∃ tid, revokeLookup info.revoke_root B = some tid ∧ tid ≤ T)) →
        (jbd_replay_block_tags env info T B st tb).1 =
          { st with reads := st.reads ++ [tb + 1],
                    disk := (B, jblk.data) :: st.disk }) ∧
      (∀ tid, revokeLookup info.revoke_root B = some tid → T < tid →
        (jbd_replay_block_tags env info T B st tb).1 = st)) ∧
    (∀ (info : RecoverInfo) (B : Nat),
      revokeLookup (jbd_add_revoke_block_tags info B).revoke_root B =
        some info.this_trans_id ∧
      (∀ B2, B2 ≠ B →
        revokeLookup (jbd_add_revoke_block_tags info B).revoke_root B2 =
          revokeLookup info.revoke_root B2)) := by
  constructor
  · intro env info T B st tb jblk hB hlog hdisk
    rcases hrl : revokeLookup info.revoke_root B with _ | tid
    · refine ⟨?_, ?_, ?_⟩
      · simp [jbd_replay_block_tags, hrl, hlog, hB, hdisk]
      · intro _
        simp [jbd_replay_block_tags, hrl, hlog, hB, hdisk]
      · intro tid htid
        exact absurd htid (by simp)
    · by_cases hT : T < tid
      · refine ⟨?_, ?_, ?_⟩
        · simp [jbd_replay_block_tags, hrl, hT]
        · intro hcond
          rcases hcond with h | ⟨tid2, h2, hle⟩
          · exact absurd h (by simp)
          · injection h2 with h2
            omega
        · intro tid2 h2 hlt
          injection h2 with h2
          subst h2
          simp [jbd_replay_block_tags, hrl, hT]
      · refine ⟨?_, ?_, ?_⟩
        · simp [jbd_replay_block_tags, hrl, hT, hlog, hB, hdisk]
        · intro _
          simp [jbd_replay_block_tags, hrl, hT, hlog, hB, hdisk]
        · intro tid2 h2 hlt
          injection h2 with h2
          omega
  · intro info B
    exact ⟨revokeLookup_update_self info.revoke_root B info.this_trans_id,
      fun B2 h => revokeLookup_update_other info.revoke_root B info.this_trans_id B2 h⟩

/-- C2 witness: block 100 is revoked at trans 8; the copy in trans 9 is
applied, the copy in trans 7 is suppressed; inserting block 100 again at
trans 9 overwrites the entry. -/
theorem c2_revoke_semantics_witness :
    ((100 : Nat) ≠ 0 ∧ rEnvData.log 3 = .ok jdbData ∧ rEnvData.diskGetRc 100 = eOK) ∧
    ((jbd_replay_block_tags rEnvData c2info 9 100 rStClean 2).1 =
      { rStClean with reads := rStClean.reads ++ [3],
                      disk := (100, jdbData.data) :: rStClean.disk }) ∧
    ((jbd_replay_block_tags rEnvData c2info 7 100 rStClean 2).1 = rStClean) ∧
    (revokeLookup (jbd_add_revoke_block_tags c2info 100).revoke_root 100 = some 9) := by
  refine ⟨⟨by decide, rfl, rfl⟩, ?_, ?_, ?_⟩
  · exact ((c2_revoke_semantics.1 rEnvData c2info 9 100 rStClean 2 jdbData (by decide)
      rfl rfl).2.1 (Or.inr ⟨8, rfl, by omega⟩))
  · exact ((c2_revoke_semantics.1 rEnvData c2info 7 100 rStClean 2 jdbData (by decide)
      rfl rfl).2.2 8 rfl (by omega))
  · exact (c2_revoke_semantics.2 c2info 100).1

/-- C3: whenever an iteration of the `jbd_iterate_log` loop reads a block
that carries the journal magic but whose sequence differs from the expected
trans id, the iteration stops there: for SCAN the loop (and hence the
function) returns EOK, for REVOKE and RECOVER it returns EIO. -/
theorem c3_sequence_mismatch :
    (∀ (env : REnv) (action : JAction) (fuel start_block : Nat) (info : RecoverInfo)
       (tid blk : Nat) (st : RSt) (jblk : JDiskBlock),
      (action = JAction.scan ∨ tid ≤ info.last_trans_id) →
      env.log blk = .ok jblk →
      jblk.magicOk = true →
      jblk.seq ≠ tid →
      iterLoop env action (fuel + 1) start_block info tid blk st =
        some (if action = JAction.scan then eOK else eIOerr, info, tid, blk,
              { st with reads := st.reads ++ [blk] })) ∧
    (∀ (env : REnv) (action : JAction) (fuel : Nat) (info : RecoverInfo) (st : RSt)
       (jblk : JDiskBlock),
      (action = JAction.scan ∨ st.jsb.sequence ≤ info.last_trans_id) →
      env.log st.jsb.start = .ok jblk →
      jblk.magicOk = true →
      jblk.seq ≠ st.jsb.sequence →
      (jbd_iterate_log env action (fuel + 1) info st).map Prod.fst =
        some (if action = JAction.scan then eOK else eIOerr)) := by
  have hloop : ∀ (env : REnv) (action : JAction) (fuel start_block : Nat)
      (info : RecoverInfo) (tid blk : Nat) (st : RSt) (jblk : JDiskBlock),
      (action = JAction.scan ∨ tid ≤ info.last_trans_id) →
      env.log blk = .ok jblk →
      jblk.magicOk = true →
      jblk.seq ≠ tid →
      iterLoop env action (fuel + 1) start_block info tid blk st =
        some (if action = JAction.scan then eOK else eIOerr, info, tid, blk,
              { st with reads := st.reads ++ [blk] }) := by
    intro env action fuel start_block info tid blk st jblk hguard hlog hmagic hseq
    by_cases hs : action = JAction.scan
    · simp [iterLoop, hlog, hmagic, hseq, hs]
    · have hle : tid ≤ info.last_trans_id := by
        rcases hguard with h | h
        · exact absurd h hs
        · exact h
      simp [iterLoop, hlog, hmagic, hseq, hs]
      intro hc
      exact absurd hc (Nat.not_lt.mpr hle)
  refine ⟨hloop, ?_⟩
  intro env action fuel info st jblk hguard hlog hmagic hseq
  have heq := hloop env action fuel st.jsb.start info st.jsb.sequence st.jsb.start st jblk
    hguard hlog hmagic hseq
  have hne : ¬ ((eIOerr : Int) = eOK) := by decide
  by_cases hs : action = JAction.scan
  · subst hs
    simp [jbd_iterate_log, heq]
  · simp [jbd_iterate_log, heq, hs, hne]

/-- C3 witness: a REVOKE-pass read of a magic-valid block with sequence 99
where 7 was expected returns EIO; the same read during SCAN returns EOK. -/
theorem c3_sequence_mismatch_witness :
    (jbd_iterate_log rEnvSeq99 JAction.revoke 5
      { start_trans_id := 7, last_trans_id := 9, this_trans_id := 0, revoke_root := [] }
      rStAt2).map Prod.fst = some eIOerr ∧
    (jbd_iterate_log rEnvSeq99 JAction.scan 5
      { start_trans_id := 7, last_trans_id := 9, this_trans_id := 0, revoke_root := [] }
      rStAt2).map Prod.fst = some eOK := by
  constructor
  · exact c3_sequence_mismatch.2 rEnvSeq99 JAction.revoke 4
      { start_trans_id := 7, last_trans_id := 9, this_trans_id := 0, revoke_root := [] }
      rStAt2 jdbSeq99 (Or.inr (by decide)) rfl rfl (by decide)
  · exact c3_sequence_mismatch.2 rEnvSeq99 JAction.scan 4
      { start_trans_id := 7, last_trans_id := 9, this_trans_id := 0, revoke_root := [] }
      rStAt2 jdbSeq99 (Or.inl rfl) rfl rfl (by decide)

/-- C7: a SCAN iteration of the log that terminates without an I/O error
(return code EOK) fills the recover info with `start_trans_id` equal to the
superblock's sequence, and `last_trans_id` equal to the final trans id minus
one when at least one commit block was seen during the scan
(`scanCommitCount` positive), and equal to the final trans id — which then
equals `start_trans_id` — otherwise. -/
theorem c7_scan_fills_recover_info (env : REnv) (fuel : Nat) (info : RecoverInfo)
    (st : RSt) (r : Int) (info2 : RecoverInfo) (tid2 blk2 : Nat) (st2 : RSt)
    (h : jbd_iterate_log env JAction.scan fuel info st = some (r, info2, tid2, blk2, st2))
    (hr : r = eOK) :
    info2.start_trans_id = st.jsb.sequence ∧
    ∃ c, scanCommitCount env st.jsb fuel st.jsb.start st.jsb.sequence st.jsb.start =
        some c ∧
      tid2 = st.jsb.sequence + c ∧
      (0 < c → info2.last_trans_id = tid2 - 1) ∧
      (c = 0 → info2.last_trans_id = tid2 ∧ tid2 = info2.start_trans_id) := by
  subst hr
  unfold jbd_iterate_log at h
  dsimp only at h
  rcases hloop : iterLoop env JAction.scan fuel st.jsb.start info st.jsb.sequence
      st.jsb.start st with _ | out
  · rw [hloop] at h
    simp at h
  · obtain ⟨r0, i0, t0, b0, s0⟩ := out
    rw [hloop] at h
    obtain ⟨hi0, hjsb, c, hc, htid⟩ :=
      scan_lockstep env fuel st.jsb.start info st.jsb.sequence st.jsb.start st
        r0 i0 t0 b0 s0 hloop
    by_cases hr0 : r0 = eOK
    · simp only [hr0, and_true, if_pos rfl, true_and, if_true, and_self,
        Option.some.injEq, Prod.mk.injEq] at h
      obtain ⟨hinfo, h2, h3, h4⟩ := h
      subst h2
      refine ⟨by rw [← hinfo], c, hc, by omega, ?_, ?_⟩
      · intro hcpos
        rw [← hinfo]
        show (if t0 > st.jsb.sequence then t0 - 1 else t0) = t0 - 1
        rw [if_pos (by omega)]
      · intro hc0
        refine ⟨?_, ?_⟩
        · rw [← hinfo]
          show (if t0 > st.jsb.sequence then t0 - 1 else t0) = t0
          rw [if_neg (by omega)]
        · rw [← hinfo]
          show t0 = st.jsb.sequence
          omega
    · simp only [hr0, false_and, and_false, if_false, if_neg, ite_false,
        Option.some.injEq, Prod.mk.injEq] at h

/-- C7 witness: a log with one commit block of sequence 7 at block 1. -/
theorem c7_scan_fills_recover_info_witness :
    (jbd_iterate_log c7env JAction.scan 5
        { start_trans_id := 0, last_trans_id := 0, this_trans_id := 0, revoke_root := [] }
        c7st).isSome = true ∧
    ∃ r info2 tid2 blk2 st2,
      jbd_iterate_log c7env JAction.scan 5
        { start_trans_id := 0, last_trans_id := 0, this_trans_id := 0, revoke_root := [] }
        c7st = some (r, info2, tid2, blk2, st2) ∧ r = eOK ∧
      (info2.start_trans_id = c7st.jsb.sequence ∧
       ∃ c, scanCommitCount c7env c7st.jsb 5 c7st.jsb.start c7st.jsb.sequence
           c7st.jsb.start = some c ∧
         tid2 = c7st.jsb.sequence + c ∧
         (0 < c → info2.last_trans_id = tid2 - 1) ∧
         (c = 0 → info2.last_trans_id = tid2 ∧ tid2 = info2.start_trans_id)) := by
  refine ⟨rfl, eOK, _, _, _, _, rfl, rfl, ?_⟩
  exact c7_scan_fills_recover_info c7env 5
    { start_trans_id := 0, last_trans_id := 0, this_trans_id := 0, revoke_root := [] }
    c7st eOK _ _ _ _ rfl rfl

/-- C9: when the journal superblock's `start` field is 0, `jbd_recover`
returns EOK immediately, leaving the whole state — including the read trace,
the filesystem superblock (and its FINCOM_RECOVER bit) and the journal
superblock — unchanged. -/
theorem c9_recover_clean_log (env : REnv) (fuel : Nat) (st : RSt)
    (h : st.jsb.start = 0) :
    jbd_recover env fuel st = some (eOK, st) := by
  unfold jbd_recover
  simp [h]

/-- C9 witness. -/
theorem c9_recover_clean_log_witness :
    rStClean.jsb.start = 0 ∧ jbd_recover rEnvErr 5 rStClean = some (eOK, rStClean) :=
  ⟨rfl, c9_recover_clean_log rEnvErr 5 rStClean rfl⟩

/-- C8 counterexample: in state `c8stDirty`, buffer 5 is dirty but not
attached to the journal's write-completion callback.  The claim says
`jbd_trans_set_block_dirty` must then create a jbd_buf and increment
`data_cnt`; the code's guard additionally requires the buffer to be clean,
so the call changes nothing (and returns EOK): `data_cnt` stays 0 and no
jbd_buf is created. -/
theorem c8_counterexample :
    (cacheGet c8stDirty 5).dirty = true ∧
    (cacheGet c8stDirty 5).end_write = none ∧
    jbd_trans_set_block_dirty c8stDirty 1 5 = (eOK, c8stDirty) ∧
    (getTrans (jbd_trans_set_block_dirty c8stDirty 1 5).2 1).map TransM.data_cnt =
      some 0 ∧
    (jbd_trans_set_block_dirty c8stDirty 1 5).2.jbufs = [] := by
  refine ⟨rfl, rfl, rfl, rfl, rfl⟩

/-- C8 (amended): `jbd_trans_set_block_dirty(T, B)` creates a jbd_buf
holding one extra cache reference, inserts or takes over the block record
for B, installs the write-completion callback with the jbd_buf as argument,
marks the buffer dirty, prepends the jbd_buf to T's buffer list and bumps
`data_cnt` — exactly when B's cache buffer is **clean and** not already
attached to the journal's write-completion callback; in every other case
(attached, or already dirty) it changes nothing and returns EOK. -/
theorem c8_set_block_dirty (st : JSt) (tok lba : Nat) (tr : TransM)
    (htr : getTrans st tok = some tr)
    (halloc : st.allocOracle = []) :
    (¬ ((cacheGet st lba).dirty = false ∧ (cacheGet st lba).end_write = none) →
      jbd_trans_set_block_dirty st tok lba = (eOK, st)) ∧
    ((cacheGet st lba).dirty = false → (cacheGet st lba).end_write = none →
      (jbd_trans_set_block_dirty st tok lba).1 = eOK ∧
      alget (jbd_trans_set_block_dirty st tok lba).2.jbufs st.nextId =
        some { transTok := tok, lba := lba } ∧
      (cacheGet (jbd_trans_set_block_dirty st tok lba).2 lba).refcnt =
        (cacheGet st lba).refcnt + 1 ∧
      (cacheGet (jbd_trans_set_block_dirty st tok lba).2 lba).end_write =
        some st.nextId ∧
      (cacheGet (jbd_trans_set_block_dirty st tok lba).2 lba).dirty = true ∧
      getTrans (jbd_trans_set_block_dirty st tok lba).2 tok =
        some { tr with data_cnt := tr.data_cnt + 1,
                       buf_list := st.nextId :: tr.buf_list } ∧
      (alget (jbd_trans_set_block_dirty st tok lba).2.recs lba).map
        BlockRecM.transTok = some tok ∧
      (alget st.recs lba = none →
        alget (jbd_trans_set_block_dirty st tok lba).2.recs lba =
          some { lba := lba, buf := some lba, transTok := tok })) := by
  constructor
  · intro hno
    unfold jbd_trans_set_block_dirty
    rw [if_neg hno]
  · intro hd he
    have hcond : (cacheGet st lba).dirty = false ∧ (cacheGet st lba).end_write = none :=
      ⟨hd, he⟩
    unfold jbd_trans_set_block_dirty
    rw [if_pos hcond, htr]
    rcases hrec : alget st.recs lba with _ | r <;>
      simp [popAlloc, halloc, jbd_trans_insert_block_rec, hrec, getTrans, setTrans,
        cacheGet_cacheMod_self, alget_alset_self, cacheGet, cacheMod]

/-- C8 witness: a concrete successful `jbd_trans_set_block_dirty` on the
clean, unattached buffer 5. -/
theorem c8_set_block_dirty_witness :
    (getTrans c8stClean 1 = some jEmptyTrans ∧ c8stClean.allocOracle = [] ∧
     (cacheGet c8stClean 5).dirty = false ∧ (cacheGet c8stClean 5).end_write = none) ∧
    ((jbd_trans_set_block_dirty c8stClean 1 5).1 = eOK ∧
     alget (jbd_trans_set_block_dirty c8stClean 1 5).2.jbufs c8stClean.nextId =
       some { transTok := 1, lba := 5 } ∧
     (cacheGet (jbd_trans_set_block_dirty c8stClean 1 5).2 5).refcnt =
       (cacheGet c8stClean 5).refcnt + 1 ∧
     (cacheGet (jbd_trans_set_block_dirty c8stClean 1 5).2 5).end_write =
       some c8stClean.nextId ∧
     (cacheGet (jbd_trans_set_block_dirty c8stClean 1 5).2 5).dirty = true ∧
     getTrans (jbd_trans_set_block_dirty c8stClean 1 5).2 1 =
       some { jEmptyTrans with data_cnt := jEmptyTrans.data_cnt + 1,
                               buf_list := c8stClean.nextId :: jEmptyTrans.buf_list } ∧
     (alget (jbd_trans_set_block_dirty c8stClean 1 5).2.recs 5).map
       BlockRecM.transTok = some 1 ∧
     (alget c8stClean.recs 5 = none →
       alget (jbd_trans_set_block_dirty c8stClean 1 5).2.recs 5 =
         some { lba := 5, buf := some 5, transTok := 1 })) :=
  ⟨⟨rfl, rfl, rfl, rfl⟩,
   (c8_set_block_dirty c8stClean 1 5 jEmptyTrans rfl rfl).2 rfl rfl⟩

/-- **C6**: `jbd_extract_block_tag` reports the block number of an ESCAPE
tag as 0, regardless of the stored `blocknr` and `blocknr_high` fields, in
both the CSUM_V3 and the non-CSUM_V3 tag layouts
(ext4_journal.c:405-406 and 430-431). -/
theorem c6_escape_reports_block_zero :
    (∀ (f : JbdFeat) (tg : JbdBlockTag3) (u : List Nat) (tb remain : Int)
       (t0 : TagInfo),
      f.incompat_csum_v3 = true →
      tg.flags &&& JBD_FLAG_ESCAPE ≠ 0 →
      ¬ remain - tb < 0 →
      (jbd_extract_block_tag f (.v3 tg u) tb remain t0).2.block = 0) ∧
    (∀ (f : JbdFeat) (tg : JbdBlockTag) (u : List Nat) (tb remain : Int)
       (t0 : TagInfo),
      f.incompat_csum_v3 = false →
      tg.flags &&& JBD_FLAG_ESCAPE ≠ 0 →
      ¬ remain - tb < 0 →
      (jbd_extract_block_tag f (.v1 tg u) tb remain t0).2.block = 0) := by
  constructor
  · intro f tg u tb remain t0 hv3 hesc hroom
    unfold jbd_extract_block_tag
    rw [if_neg hroom, if_pos hv3]
    dsimp only
    rw [if_pos hesc]
    split_ifs <;> rfl
  · intro f tg u tb remain t0 hv3 hesc hroom
    unfold jbd_extract_block_tag
    rw [if_neg hroom, if_neg (show ¬ f.incompat_csum_v3 = true by
      rw [hv3]; exact Bool.false_ne_true)]
    dsimp only
    rw [if_pos hesc]
    split_ifs <;> rfl

/-- C6 witness: concrete ESCAPE tags in each layout, with nonzero stored
block halves, extract to block 0. -/
theorem c6_escape_witness :
    (featCsum3.incompat_csum_v3 = true ∧
     c6tag3.flags &&& JBD_FLAG_ESCAPE ≠ 0 ∧ ¬ ((100 : Int) - 16 < 0) ∧
     (jbd_extract_block_tag featCsum3 (.v3 c6tag3 (List.replicate 16 0)) 16 100
       tagInfo0).2.block = 0) ∧
    (featNone.incompat_csum_v3 = false ∧
     c6tag1.flags &&& JBD_FLAG_ESCAPE ≠ 0 ∧ ¬ ((100 : Int) - 8 < 0) ∧
     (jbd_extract_block_tag featNone (.v1 c6tag1 (List.replicate 16 0)) 8 100
       tagInfo0).2.block = 0) :=
  ⟨⟨rfl, by decide, by decide,
    c6_escape_reports_block_zero.1 featCsum3 c6tag3 (List.replicate 16 0) 16 100
      tagInfo0 rfl (by decide) (by decide)⟩,
   rfl, by decide, by decide,
   c6_escape_reports_block_zero.2 featNone c6tag1 (List.replicate 16 0) 8 100
     tagInfo0 rfl (by decide) (by decide)⟩

/-- **C4**: whenever `jbd_journal_commit_trans` fails (a non-EOK code from
`jbd_journal_prepare`, `jbd_journal_prepare_revoke` or
`jbd_trans_write_commit_block`), the returned state went through the `Finish`
label: `journal.last` is restored to the value it held on entry, and the
transaction is freed in abort mode — for every `jbd_buf` of the transaction
at that point, the cache buffer's end-of-write callback and its argument are
cleared, its dirty bit is cleared, its cache reference is released, its
owned block record is removed, the `jbd_buf` is freed, and the transaction
disappears from the transaction table (the duplicate-freedom side conditions
express the pointer identity of the C heaps and of the per-transaction
lists). -/
theorem c4_commit_fail_abort (fuel : Nat) (st : JSt) (tok : Nat) (rc : Int)
    (st2 : JSt)
    (h : jbd_journal_commit_trans fuel st tok = some (rc, st2))
    (hrc : rc ≠ eOK) :
    st2.journal.last = st.journal.last ∧
    ∃ sFin, st2 = commitFinishFail sFin tok st.journal.last ∧
      ∀ tr, getTrans sFin tok = some tr →
        ((sFin.transes.map Prod.fst).Nodup → getTrans st2 tok = none) ∧
        (tr.buf_list.Nodup → (sFin.jbufs.map Prod.fst).Nodup →
         (sFin.recs.map Prod.fst).Nodup → (lbasOf sFin tr.buf_list).Nodup →
          ∀ id ∈ tr.buf_list, ∀ jb, alget sFin.jbufs id = some jb →
            cacheGet st2 jb.lba =
              { cacheGet sFin jb.lba with
                end_write := none, dirty := false,
                refcnt := (cacheGet sFin jb.lba).refcnt - 1 } ∧
            alget st2.jbufs id = none ∧
            alget st2.recs jb.lba =
              (match alget sFin.recs jb.lba with
                | some r => if r.transTok = jb.transTok then none else some r
                | none => none)) := by
  obtain ⟨sFin, hsf⟩ := commit_fail_shape fuel st tok rc st2 h hrc
  refine ⟨?_, sFin, hsf, ?_⟩
  · rw [hsf, commitFinishFail_journal]
  · intro tr hg
    refine ⟨?_, ?_⟩
    · intro hn
      rw [hsf]
      unfold commitFinishFail
      exact free_trans_abort_getTrans _ tok tr hn hg
    · intro hbn hjn hrn hln id hid jb hjb
      rw [hsf]
      exact commitFinishFail_effects sFin tok st.journal.last tr hg hbn hjn hrn
        hln id hid jb hjb

/-- C4 witness: committing the one-buffer transaction of `c4st` fails with
the injected I/O error, and the resulting state satisfies the rollback
conclusion. -/
theorem c4_commit_fail_abort_witness :
    jbd_journal_commit_trans 9 c4st 1 = some (eIOerr, c4st2) ∧
    eIOerr ≠ eOK ∧
    (c4st2.journal.last = c4st.journal.last ∧
     ∃ sFin, c4st2 = commitFinishFail sFin 1 c4st.journal.last ∧
       ∀ tr, getTrans sFin 1 = some tr →
         ((sFin.transes.map Prod.fst).Nodup → getTrans c4st2 1 = none) ∧
         (tr.buf_list.Nodup → (sFin.jbufs.map Prod.fst).Nodup →
          (sFin.recs.map Prod.fst).Nodup → (lbasOf sFin tr.buf_list).Nodup →
           ∀ id ∈ tr.buf_list, ∀ jb, alget sFin.jbufs id = some jb →
             cacheGet c4st2 jb.lba =
               { cacheGet sFin jb.lba with
                 end_write := none, dirty := false,
                 refcnt := (cacheGet sFin jb.lba).refcnt - 1 } ∧
             alget c4st2.jbufs id = none ∧
             alget c4st2.recs jb.lba =
               (match alget sFin.recs jb.lba with
                 | some r => if r.transTok = jb.transTok then none else some r
                 | none => none))) :=
  ⟨rfl, by decide, c4_commit_fail_abort 9 c4st 1 eIOerr c4st2 rfl (by decide)⟩

/-- C10: on the failing input where the journal inode reference is acquired
but reading the journal superblock fails, `jbd_get_fs` does return the error
and does leave the output `jbd_fs` zeroed — but the `memset` happens before
`ext4_fs_put_inode_ref(&jbd_fs->inode_ref)`, so the put releases the zeroed
reference (inode 0) and the reference acquired on the journal inode (8) is
still held when the error is returned. -/
theorem c10_get_fs_ref_leak :
    (jbd_get_fs c10env { heldRefs := [] }).1 = eIOerr ∧
    (jbd_get_fs c10env { heldRefs := [] }).2.1 = jbdFsZero ∧
    (jbd_get_fs c10env { heldRefs := [] }).2.2.heldRefs = [8] := by
  decide

end LwJbd
